import Mathlib

/-!
# ferrydb `pkg/store/store.go`: the store coordinator

A shallow embedding of `store.go`.  The `Store` struct becomes a record, the
two `container/list` lists become Lean lists (front = head), the mutex is a
held/free flag, and the `uint64` generation counter is a natural number that
is incremented modulo `2^64`.

Everything the store calls but does not implement (the engine facade, the
forward handlers, the snapshot callback, closing an iterator or a snapshot)
is recorded in a log of calls; each entry also keeps the store as it was when
the call was made, so that the order of calls and field updates is visible.
What the facade answers is an input of the operation that asks.
-/

namespace store

/-! ## Data model -/

/-- Error values: the package sentinel `ErrClosed`, an error reported by the
engine, and the wrapper added by `errors.Trace`. -/
inductive Error where
  | ErrClosed : Error
  | engine (code : Nat) : Error
  | traced (e : Error) : Error
  deriving DecidableEq, Repr

/-- The wrapper `errors.Trace` of juju/errors: a new error around `e`. -/
def Trace (e : Error) : Error := Error.traced e

/-- The function `errors.Cause` of juju/errors: the innermost wrapped error. -/
def Cause : Error → Error
  | Error.traced e => Cause e
  | e => e

/-- Modelled from the spec: `engine.Database` is declared outside `store.go`.
The facade is the external capability set get, commit, newSnapshot,
newIterator, compact, clear, close; a non-nil facade is a handle, and every
call made through it is recorded in the log, its answer being an input. -/
structure Database where
  handle : Nat
  deriving DecidableEq, Repr

/-- Modelled from the spec: `engine.Batch` is declared outside `store.go`; a
batch exposes its length, which is all that `commit` reads. -/
structure Batch where
  Len : Nat
  deriving DecidableEq, Repr

/-- Modelled from the spec: `Forward` is declared outside `store.go`; it is
the write-intent record threaded through both observer chains unchanged. -/
structure Forward where
  id : Nat
  deriving DecidableEq, Repr

/-- Modelled from the spec: `ForwardHandler` is declared outside `store.go`;
a registered observer, kept by identity. -/
structure ForwardHandler where
  id : Nat
  deriving DecidableEq, Repr

/-- The callback `f func()` of `NewSnapshotFunc` (a function value). -/
structure Callback where
  id : Nat
  deriving DecidableEq, Repr

/-- Modelled from the spec: `engine.Iterator` is declared outside `store.go`;
a facade iterator is a handle together with the stored error that `Error()`
reports (`none` for no error). -/
structure Iterator where
  handle : Nat
  err : Option Error
  deriving DecidableEq, Repr

/-- Modelled from the spec: the facade snapshot returned by
`db.NewSnapshot()`, declared outside `store.go`; a handle. -/
structure Snapshot where
  handle : Nat
  deriving DecidableEq, Repr

/-- Modelled from the spec: `storeIterator` is declared outside `store.go`;
it wraps a facade iterator plus the generation at creation time.  `store.go`
builds it as `&storeIterator{Iterator: ..., serial: ...}`, so a value here is
the address of the object, the embedded facade iterator, and the tag. -/
structure storeIterator where
  addr : Nat
  Iterator : Iterator
  serial : Nat
  deriving DecidableEq, Repr

/-- Modelled from the spec: `it.Error()` is the stored error of the wrapped
facade iterator. -/
def storeIterator.Error (it : storeIterator) : Option Error := it.Iterator.err

/-- Modelled from the spec: `StoreSnapshot` is declared outside `store.go`;
`store.go` builds it as `&StoreSnapshot{sp: ...}` and compares two of them by
pointer, so a value here is the address of the object and the facade snapshot
it wraps. -/
structure StoreSnapshot where
  addr : Nat
  sp : Snapshot
  deriving DecidableEq, Repr

/-- The `Store` struct.  `mu` is `true` while the mutex is held; `db` is
`none` for a nil facade; `serial` is a `uint64`; `deleteIfExpired` is the
`atomic2.Int64`. -/
structure Store where
  mu : Bool
  db : Option Database
  splist : List StoreSnapshot
  itlist : List storeIterator
  serial : Nat
  preCommitHandlers : List ForwardHandler
  postCommitHandlers : List ForwardHandler
  deleteIfExpired : Int
  deriving DecidableEq, Repr

/-- A call that leaves `store.go`: a forward handler run by one of the two
chains, a method of the facade, `Close()` on an iterator or on a snapshot,
or the callback of `NewSnapshotFunc`. -/
inductive Call where
  | preCommit (h : ForwardHandler) (fw : Forward) : Call
  | postCommit (h : ForwardHandler) (fw : Forward) : Call
  | dbCommit (db : Database) (bt : Batch) : Call
  | dbGet (db : Database) (key : List Nat) : Call
  | dbNewIterator (db : Database) : Call
  | dbNewSnapshot (db : Database) : Call
  | dbCompact (db : Database) (start limit : List Nat) : Call
  | dbClear (db : Database) : Call
  | dbClose (db : Database) : Call
  | itClose (it : storeIterator) : Call
  | spClose (sp : StoreSnapshot) : Call
  | callback (f : Callback) : Call
  deriving DecidableEq, Repr

/-- One log entry: the call, and the store as it was when the call was made. -/
structure Event where
  seen : Store
  call : Call
  deriving DecidableEq, Repr

/-- The store together with the log of the calls made so far. -/
structure World where
  s : Store
  log : List Event
  deriving DecidableEq, Repr

/-- How a call of a store function ends: it returns `v`, it panics (a method
call on the nil facade, or unlocking a free mutex), or it waits for the mutex
for ever. -/
inductive Outcome (α : Type) where
  | ret (v : α) : Outcome α
  | panic : Outcome α
  | blocked : Outcome α
  deriving DecidableEq, Repr

/-- The size of the `uint64` range. -/
def uint64Size : Nat := 2 ^ 64

/-! ## Operations -/

/-- Record a call in the log, with the store as it is now. -/
def emit (c : Call) (w : World) : World :=
  { w with log := w.log ++ [{ seen := w.s, call := c }] }

/-- The constructor `New(db)`: empty lists, serial 0, no handlers,
`deleteIfExpired` set to 1. -/
def New (db : Option Database) : World :=
  { s := { mu := false, db := db, splist := [], itlist := [], serial := 0,
           preCommitHandlers := [], postCommitHandlers := [], deleteIfExpired := 1 },
    log := [] }

/-- The gate `acquire()`: lock, and if the facade is nil unlock again and
return `errors.Trace(ErrClosed)`. -/
def acquire (w : World) : World × Outcome (Option Error) :=
  if w.s.mu then (w, Outcome.blocked)
  else
    let w1 : World := { w with s := { w.s with mu := true } }
    if w1.s.db.isSome then (w1, Outcome.ret none)
    else ({ w1 with s := { w1.s with mu := false } }, Outcome.ret (some (Trace Error.ErrClosed)))

/-- The gate `release()`: unlock; unlocking a free mutex is a fatal error. -/
def release (w : World) : World × Outcome Unit :=
  if w.s.mu then ({ w with s := { w.s with mu := false } }, Outcome.ret ())
  else (w, Outcome.panic)

/-- The public `Acquire()`. -/
def Acquire (w : World) : World × Outcome (Option Error) := acquire w

/-- The public `Release()`. -/
def Release (w : World) : World × Outcome Unit := release w

/-- The deferred `s.release()` of a function that returns `v`. -/
def deferRelease {α : Type} (v : α) (w : World) : World × Outcome α :=
  match release w with
  | (w1, Outcome.ret _) => (w1, Outcome.ret v)
  | (w1, Outcome.panic) => (w1, Outcome.panic)
  | (w1, Outcome.blocked) => (w1, Outcome.blocked)

/-- Modelled from the spec: `travelPreCommitHandlers` is defined outside
`store.go`; it invokes every pre-commit observer in registration order with
the forward record, and observer failures are not propagated. -/
def travelPreCommitHandlers (fw : Forward) (w : World) : World :=
  w.s.preCommitHandlers.foldl (fun acc h => emit (Call.preCommit h fw) acc) w

/-- Modelled from the spec: `travelPostCommitHandlers` is defined outside
`store.go`; it invokes every post-commit observer in registration order with
the forward record, and observer failures are not propagated. -/
def travelPostCommitHandlers (fw : Forward) (w : World) : World :=
  w.s.postCommitHandlers.foldl (fun acc h => emit (Call.postCommit h fw) acc) w

/-- The loop `for i := s.itlist.Len(); i != 0; i--` that removes the front
iterator and closes it.  The empty-list branch is not reached when `i` starts
at the length. -/
def closeItlist : Nat → World → World
  | 0, w => w
  | i + 1, w =>
    match w.s.itlist with
    | [] => w
    | v :: rest => closeItlist i (emit (Call.itClose v) { w with s := { w.s with itlist := rest } })

/-- The loop `for i := s.splist.Len(); i != 0; i--` that removes the front
snapshot and closes it. -/
def closeSplist : Nat → World → World
  | 0, w => w
  | i + 1, w =>
    match w.s.splist with
    | [] => w
    | v :: rest => closeSplist i (emit (Call.spClose v) { w with s := { w.s with splist := rest } })

/-- The loop of `ReleaseSnapshot`: remove the front snapshot and push it to
the back again unless it is `sp` (compared by address). -/
def dropSnapshot (sp : StoreSnapshot) : Nat → World → World
  | 0, w => w
  | i + 1, w =>
    match w.s.splist with
    | [] => w
    | v :: rest =>
      if v.addr ≠ sp.addr then
        dropSnapshot sp i { w with s := { w.s with splist := rest ++ [v] } }
      else
        dropSnapshot sp i { w with s := { w.s with splist := rest } }

/-- The internal `commit(bt, fw)`; `reply` is what the facade answers to
`Commit` if it is asked (`none` for a nil error). -/
def commit (bt : Batch) (fw : Forward) (reply : Option Error) (w : World) :
    World × Outcome (Option Error) :=
  if bt.Len = 0 then (w, Outcome.ret none)
  else
    let w1 := travelPreCommitHandlers fw w
    match w1.s.db with
    | none => (w1, Outcome.panic)
    | some db =>
      let w2 := emit (Call.dbCommit db bt) w1
      match reply with
      | some err => (w2, Outcome.ret (some (Trace err)))
      | none =>
        let w3 := closeItlist w2.s.itlist.length w2
        let w4 : World := { w3 with s := { w3.s with serial := (w3.s.serial + 1) % uint64Size } }
        let w5 := travelPostCommitHandlers fw w4
        (w5, Outcome.ret none)

/-- The internal `getRowValue(key)`; `reply` is what the facade answers. -/
def getRowValue (key : List Nat) (reply : Option (List Nat) × Option Error) (w : World) :
    World × Outcome (Option (List Nat) × Option Error) :=
  match w.s.db with
  | none => (w, Outcome.panic)
  | some db => (emit (Call.dbGet db key) w, Outcome.ret reply)

/-- The internal `getIterator()`; `addr` is the address of the object
allocated and `fresh` the iterator the facade returns, if the pool is empty. -/
def getIterator (addr : Nat) (fresh : Iterator) (w : World) : World × Outcome storeIterator :=
  match w.s.itlist with
  | e :: rest => ({ w with s := { w.s with itlist := rest } }, Outcome.ret e)
  | [] =>
    match w.s.db with
    | none => (w, Outcome.panic)
    | some db =>
      (emit (Call.dbNewIterator db) w,
        Outcome.ret { addr := addr, Iterator := fresh, serial := w.s.serial })

/-- The internal `putIterator(it)`. -/
def putIterator (it : storeIterator) (w : World) : World × Outcome Unit :=
  if it.serial = w.s.serial ∧ it.Error = none then
    ({ w with s := { w.s with itlist := it :: w.s.itlist } }, Outcome.ret ())
  else
    (emit (Call.itClose it) w, Outcome.ret ())

/-- The body of `Close()` after the gate: drain both lists, close and nil the
facade. -/
def closeBody (w : World) : World :=
  let w1 := closeSplist w.s.splist.length w
  let w2 := closeItlist w1.s.itlist.length w1
  match w2.s.db with
  | some db =>
    let w3 := emit (Call.dbClose db) w2
    { w3 with s := { w3.s with db := none } }
  | none => w2

/-- The public `Close()`. -/
def Close (w : World) : World × Outcome Unit :=
  match acquire w with
  | (w1, Outcome.ret none) => deferRelease () (closeBody w1)
  | (w1, Outcome.ret (some _)) => (w1, Outcome.ret ())
  | (w1, Outcome.panic) => (w1, Outcome.panic)
  | (w1, Outcome.blocked) => (w1, Outcome.blocked)

/-- The public `NewSnapshotFunc(f)`; `addr` is the address of the snapshot
object allocated and `snap` the snapshot the facade returns. -/
def NewSnapshotFunc (f : Option Callback) (addr : Nat) (snap : Snapshot) (w : World) :
    World × Outcome (Option StoreSnapshot × Option Error) :=
  match acquire w with
  | (w1, Outcome.ret none) =>
    match w1.s.db with
    | none => ((release w1).1, Outcome.panic)
    | some db =>
      let w2 := emit (Call.dbNewSnapshot db) w1
      let sp : StoreSnapshot := { addr := addr, sp := snap }
      let w3 : World := { w2 with s := { w2.s with splist := w2.s.splist ++ [sp] } }
      let w4 := match f with
        | some g => emit (Call.callback g) w3
        | none => w3
      deferRelease (some sp, none) w4
  | (w1, Outcome.ret (some err)) => (w1, Outcome.ret (none, some (Trace err)))
  | (w1, Outcome.panic) => (w1, Outcome.panic)
  | (w1, Outcome.blocked) => (w1, Outcome.blocked)

/-- The public `NewSnapshot()`. -/
def NewSnapshot (addr : Nat) (snap : Snapshot) (w : World) :
    World × Outcome (Option StoreSnapshot × Option Error) :=
  NewSnapshotFunc none addr snap w

/-- The public `ReleaseSnapshot(sp)`. -/
def ReleaseSnapshot (sp : StoreSnapshot) (w : World) : World × Outcome Unit :=
  match acquire w with
  | (w1, Outcome.ret none) =>
    let w2 := dropSnapshot sp w1.s.splist.length w1
    deferRelease () (emit (Call.spClose sp) w2)
  | (w1, Outcome.ret (some _)) => (w1, Outcome.ret ())
  | (w1, Outcome.panic) => (w1, Outcome.panic)
  | (w1, Outcome.blocked) => (w1, Outcome.blocked)

/-- The public `Reset()`; `reply` is what the facade answers to `Clear` if it
is asked. -/
def Reset (reply : Option Error) (w : World) : World × Outcome (Option Error) :=
  match acquire w with
  | (w1, Outcome.ret none) =>
    let w2 := closeSplist w1.s.splist.length w1
    let w3 := closeItlist w2.s.itlist.length w2
    match w3.s.db with
    | none => ((release w3).1, Outcome.panic)
    | some db =>
      let w4 := emit (Call.dbClear db) w3
      match reply with
      | some err =>
        let w5 := emit (Call.dbClose db) w4
        deferRelease (some (Trace err)) { w5 with s := { w5.s with db := none } }
      | none =>
        deferRelease none { w4 with s := { w4.s with serial := (w4.s.serial + 1) % uint64Size } }
  | (w1, Outcome.ret (some err)) => (w1, Outcome.ret (some (Trace err)))
  | (w1, Outcome.panic) => (w1, Outcome.panic)
  | (w1, Outcome.blocked) => (w1, Outcome.blocked)

/-- The public `SetDeleteIfExpired(b)`. -/
def SetDeleteIfExpired (b : Bool) (w : World) : World × Outcome Unit :=
  if b then ({ w with s := { w.s with deleteIfExpired := 1 } }, Outcome.ret ())
  else ({ w with s := { w.s with deleteIfExpired := 0 } }, Outcome.ret ())

/-- The internal `needDeleteIfExpired()`. -/
def needDeleteIfExpired (w : World) : Bool := w.s.deleteIfExpired == 1

/-- The internal `compact(start, limit)`; `reply` is what the facade answers
to `Compact` if it is asked. -/
def compact (start limit : List Nat) (reply : Option Error) (w : World) :
    World × Outcome (Option Error) :=
  match w.s.db with
  | none => (w, Outcome.panic)
  | some db =>
    let w1 := emit (Call.dbCompact db start limit) w
    match reply with
    | some err => (w1, Outcome.ret (some (Trace err)))
    | none => (w1, Outcome.ret none)

/-! ## Sequences of operations -/

/-- One call of a store function, with the answers of the facade and of the
allocator that the call may consume. -/
inductive Op where
  | commit (bt : Batch) (fw : Forward) (reply : Option Error) : Op
  | Reset (reply : Option Error) : Op
  | Close : Op
  | NewSnapshot (addr : Nat) (snap : Snapshot) : Op
  | NewSnapshotFunc (f : Option Callback) (addr : Nat) (snap : Snapshot) : Op
  | ReleaseSnapshot (sp : StoreSnapshot) : Op
  | getIterator (addr : Nat) (fresh : Iterator) : Op
  | putIterator (it : storeIterator) : Op
  | compact (start limit : List Nat) (reply : Option Error) : Op
  | SetDeleteIfExpired (b : Bool) : Op
  | getRowValue (key : List Nat) (reply : Option (List Nat) × Option Error) : Op
  | Acquire : Op
  | Release : Op
  deriving DecidableEq, Repr

/-- The world after one call; a call that panics or blocks leaves the world
as it was at that point. -/
def step (op : Op) (w : World) : World :=
  match op with
  | Op.commit bt fw reply => (commit bt fw reply w).1
  | Op.Reset reply => (Reset reply w).1
  | Op.Close => (Close w).1
  | Op.NewSnapshot addr snap => (NewSnapshot addr snap w).1
  | Op.NewSnapshotFunc f addr snap => (NewSnapshotFunc f addr snap w).1
  | Op.ReleaseSnapshot sp => (ReleaseSnapshot sp w).1
  | Op.getIterator addr fresh => (getIterator addr fresh w).1
  | Op.putIterator it => (putIterator it w).1
  | Op.compact start limit reply => (compact start limit reply w).1
  | Op.SetDeleteIfExpired b => (SetDeleteIfExpired b w).1
  | Op.getRowValue key reply => (getRowValue key reply w).1
  | Op.Acquire => (Acquire w).1
  | Op.Release => (Release w).1

/-- The world after a sequence of calls, first call first. -/
def run : List Op → World → World
  | [], w => w
  | op :: ops, w => run ops (step op w)

/-- The calls that `op` adds to the log when it runs in `w`. -/
def newCalls (op : Op) (w : World) : List Call :=
  ((step op w).log.drop w.log.length).map Event.call

/-- Whether a call is the facade's `Commit`. -/
def Call.isDbCommit : Call → Bool
  | Call.dbCommit _ _ => true
  | _ => false

/-- Whether a call is the facade's `Clear`. -/
def Call.isDbClear : Call → Bool
  | Call.dbClear _ => true
  | _ => false

/-- Stated from the claim's words, to be compared with what `step` does to
`serial`: the steps that count for the generation are a commit of a
non-empty batch whose facade `Commit` was made and succeeded, and a `Reset`
whose facade `Clear` was made and succeeded. -/
def bumps (op : Op) (w : World) : Bool :=
  match op with
  | Op.commit bt _ reply =>
    decide (bt.Len ≠ 0) && (newCalls op w).any Call.isDbCommit && reply.isNone
  | Op.Reset reply => (newCalls op w).any Call.isDbClear && reply.isNone
  | _ => false

/-- Stated from the claim's words: the number of counting steps in a
sequence that starts in `w`. -/
def countBumps : List Op → World → Nat
  | [], _ => 0
  | op :: ops, w => (if bumps op w then 1 else 0) + countBumps ops (step op w)

/-- The log entries of `closeItlist`: iterator after iterator, each closed
when it has just been removed. -/
def itCloseLog (s : Store) : Nat → List storeIterator → List Event
  | 0, _ => []
  | _ + 1, [] => []
  | i + 1, v :: rest =>
    { seen := { s with itlist := rest }, call := Call.itClose v } :: itCloseLog s i rest

/-- The log entries of `closeSplist`. -/
def spCloseLog (s : Store) : Nat → List StoreSnapshot → List Event
  | 0, _ => []
  | _ + 1, [] => []
  | i + 1, v :: rest =>
    { seen := { s with splist := rest }, call := Call.spClose v } :: spCloseLog s i rest

/-- The pool invariant: every pooled iterator carries the current
generation. -/
def poolTagged (w : World) : Prop := ∀ it ∈ w.s.itlist, it.serial = w.s.serial

/-! ## Sample stores -/

/-- An open store whose gate is held by the caller: two registered snapshots,
two pooled iterators of generation 3, two pre-commit handlers and one
post-commit handler. -/
def sampleHeld : World :=
  { s := { mu := true, db := some { handle := 1 },
           splist := [{ addr := 100, sp := { handle := 10 } }, { addr := 101, sp := { handle := 11 } }],
           itlist := [{ addr := 200, Iterator := { handle := 20, err := none }, serial := 3 },
                      { addr := 201, Iterator := { handle := 21, err := none }, serial := 3 }],
           serial := 3,
           preCommitHandlers := [{ id := 1 }, { id := 2 }],
           postCommitHandlers := [{ id := 3 }],
           deleteIfExpired := 1 },
    log := [] }

/-- The same store with the mutex free. -/
def sampleFree : World := { sampleHeld with s := { sampleHeld.s with mu := false } }

/-- An open store whose serial is the largest `uint64`. -/
def sampleLast : World :=
  { sampleHeld with s := { sampleHeld.s with itlist := [], serial := 2 ^ 64 - 1 } }

/-- An open store whose serial is the largest `uint64` and whose mutex is
free. -/
def sampleLastFree : World := { sampleLast with s := { sampleLast.s with mu := false } }

/-! # Proofs -/

/-! ## The loops and the handler chains in closed form -/

theorem foldl_emit (mk : ForwardHandler → Call) (hs : List ForwardHandler) (s : Store)
    (log : List Event) :
    hs.foldl (fun acc h => emit (mk h) acc) { s := s, log := log } =
      { s := s, log := log ++ hs.map (fun h => { seen := s, call := mk h }) } := by
  induction hs generalizing log with
  | nil => simp
  | cons h hs ih =>
    have h1 : emit (mk h) { s := s, log := log } =
        { s := s, log := log ++ [{ seen := s, call := mk h }] } := rfl
    rw [List.foldl_cons, h1, ih]
    simp

theorem travelPreCommitHandlers_eq (fw : Forward) (w : World) :
    travelPreCommitHandlers fw w =
      { s := w.s,
        log := w.log ++ w.s.preCommitHandlers.map
          (fun h => { seen := w.s, call := Call.preCommit h fw }) } := by
  unfold travelPreCommitHandlers
  exact foldl_emit (fun h => Call.preCommit h fw) w.s.preCommitHandlers w.s w.log

theorem travelPostCommitHandlers_eq (fw : Forward) (w : World) :
    travelPostCommitHandlers fw w =
      { s := w.s,
        log := w.log ++ w.s.postCommitHandlers.map
          (fun h => { seen := w.s, call := Call.postCommit h fw }) } := by
  unfold travelPostCommitHandlers
  exact foldl_emit (fun h => Call.postCommit h fw) w.s.postCommitHandlers w.s w.log

theorem itCloseLog_itlist (s : Store) (l0 : List storeIterator) (n : Nat)
    (l : List storeIterator) :
    itCloseLog { s with itlist := l0 } n l = itCloseLog s n l := by
  induction n generalizing l with
  | zero => simp [itCloseLog]
  | succ i ih =>
    cases l with
    | nil => simp [itCloseLog]
    | cons v rest => simp [itCloseLog, ih]

theorem spCloseLog_splist (s : Store) (l0 : List StoreSnapshot) (n : Nat)
    (l : List StoreSnapshot) :
    spCloseLog { s with splist := l0 } n l = spCloseLog s n l := by
  induction n generalizing l with
  | zero => simp [spCloseLog]
  | succ i ih =>
    cases l with
    | nil => simp [spCloseLog]
    | cons v rest => simp [spCloseLog, ih]

theorem closeItlist_eq (n : Nat) (w : World) :
    closeItlist n w =
      { s := { w.s with itlist := w.s.itlist.drop n },
        log := w.log ++ itCloseLog w.s n w.s.itlist } := by
  induction n generalizing w with
  | zero => simp [closeItlist, itCloseLog]
  | succ i ih =>
    rcases w with ⟨s, log⟩
    rcases s with ⟨mu, db, sps, its, serial, pre, post, del⟩
    cases its with
    | nil => simp [closeItlist, itCloseLog]
    | cons v rest =>
      simp only [closeItlist, itCloseLog, ih, emit, List.drop_succ_cons, List.append_assoc,
        List.singleton_append]
      have h1 := itCloseLog_itlist
        { mu := mu, db := db, splist := sps, itlist := v :: rest, serial := serial,
          preCommitHandlers := pre, postCommitHandlers := post, deleteIfExpired := del } rest i rest
      simp only at h1
      rw [h1]

theorem closeSplist_eq (n : Nat) (w : World) :
    closeSplist n w =
      { s := { w.s with splist := w.s.splist.drop n },
        log := w.log ++ spCloseLog w.s n w.s.splist } := by
  induction n generalizing w with
  | zero => simp [closeSplist, spCloseLog]
  | succ i ih =>
    rcases w with ⟨s, log⟩
    rcases s with ⟨mu, db, sps, its, serial, pre, post, del⟩
    cases sps with
    | nil => simp [closeSplist, spCloseLog]
    | cons v rest =>
      simp only [closeSplist, spCloseLog, ih, emit, List.drop_succ_cons, List.append_assoc,
        List.singleton_append]
      have h1 := spCloseLog_splist
        { mu := mu, db := db, splist := v :: rest, itlist := its, serial := serial,
          preCommitHandlers := pre, postCommitHandlers := post, deleteIfExpired := del } rest i rest
      simp only at h1
      rw [h1]

theorem itCloseLog_calls (s : Store) (n : Nat) (l : List storeIterator) :
    (itCloseLog s n l).map Event.call = (l.take n).map Call.itClose := by
  induction n generalizing l with
  | zero => simp [itCloseLog]
  | succ i ih =>
    cases l with
    | nil => simp [itCloseLog]
    | cons v rest => simp [itCloseLog, ih]

theorem spCloseLog_calls (s : Store) (n : Nat) (l : List StoreSnapshot) :
    (spCloseLog s n l).map Event.call = (l.take n).map Call.spClose := by
  induction n generalizing l with
  | zero => simp [spCloseLog]
  | succ i ih =>
    cases l with
    | nil => simp [spCloseLog]
    | cons v rest => simp [spCloseLog, ih]

theorem itCloseLog_seen (s : Store) (n : Nat) (l : List storeIterator) (e : Event)
    (he : e ∈ itCloseLog s n l) : ∃ rest, e.seen = { s with itlist := rest } := by
  induction n generalizing l with
  | zero => simp [itCloseLog] at he
  | succ i ih =>
    cases l with
    | nil => simp [itCloseLog] at he
    | cons v rest =>
      simp only [itCloseLog, List.mem_cons] at he
      rcases he with he | he
      · exact ⟨rest, by rw [he]⟩
      · exact ih rest he

theorem spCloseLog_seen (s : Store) (n : Nat) (l : List StoreSnapshot) (e : Event)
    (he : e ∈ spCloseLog s n l) : ∃ rest, e.seen = { s with splist := rest } := by
  induction n generalizing l with
  | zero => simp [spCloseLog] at he
  | succ i ih =>
    cases l with
    | nil => simp [spCloseLog] at he
    | cons v rest =>
      simp only [spCloseLog, List.mem_cons] at he
      rcases he with he | he
      · exact ⟨rest, by rw [he]⟩
      · exact ih rest he

theorem dropSnapshot_frame (sp : StoreSnapshot) (n : Nat) (w : World) :
    dropSnapshot sp n w =
      { s := { w.s with splist := (dropSnapshot sp n w).s.splist }, log := w.log } := by
  induction n generalizing w with
  | zero => simp [dropSnapshot]
  | succ i ih =>
    rcases w with ⟨s, log⟩
    rcases s with ⟨mu, db, sps, its, serial, pre, post, del⟩
    cases sps with
    | nil => simp [dropSnapshot]
    | cons v rest =>
      by_cases hv : v.addr = sp.addr
      · simp only [dropSnapshot, hv, ne_eq, not_true_eq_false, if_false]
        rw [ih]
      · simp only [dropSnapshot, hv, ne_eq, not_false_eq_true, if_true]
        rw [ih]

/-! ## commit -/

theorem dropSnapshot_eq (sp : StoreSnapshot) (n : Nat) (w : World)
    (hn : n ≤ w.s.splist.length) :
    dropSnapshot sp n w =
      { s := { w.s with
                splist := w.s.splist.drop n ++
                  (w.s.splist.take n).filter (fun v => decide (v.addr ≠ sp.addr)) },
        log := w.log } := by
  induction n generalizing w with
  | zero => simp [dropSnapshot]
  | succ i ih =>
    rcases w with ⟨s, log⟩
    rcases s with ⟨mu, db, sps, its, serial, pre, post, del⟩
    cases sps with
    | nil => simp at hn
    | cons v rest =>
      have hi : i ≤ rest.length := by simpa using hn
      by_cases hv : v.addr = sp.addr
      · simp only [dropSnapshot, hv, ne_eq, not_true_eq_false, if_false]
        rw [ih _ hi]
        simp [hv]
      · simp only [dropSnapshot, hv, ne_eq, not_false_eq_true, if_true]
        rw [ih _ (by simp; omega)]
        simp [hv, List.drop_append_of_le_length hi, List.take_append_of_le_length hi]

theorem dropSnapshot_length_eq (sp : StoreSnapshot) (w : World) :
    (dropSnapshot sp w.s.splist.length w).s.splist =
      w.s.splist.filter (fun v => decide (v.addr ≠ sp.addr)) := by
  rw [dropSnapshot_eq sp _ w (Nat.le_refl _)]
  simp

theorem commit_accepted_eq (w : World) (bt : Batch) (fw : Forward) (db : Database)
    (hdb : w.s.db = some db) (hbt : bt.Len ≠ 0) :
    commit bt fw none w =
      ({ s := { w.s with itlist := [], serial := (w.s.serial + 1) % uint64Size },
         log := w.log
          ++ w.s.preCommitHandlers.map (fun h => { seen := w.s, call := Call.preCommit h fw })
          ++ [{ seen := w.s, call := Call.dbCommit db bt }]
          ++ itCloseLog w.s w.s.itlist.length w.s.itlist
          ++ w.s.postCommitHandlers.map (fun h =>
              { seen := { w.s with itlist := [], serial := (w.s.serial + 1) % uint64Size },
                call := Call.postCommit h fw }) }, Outcome.ret none) := by
  simp [commit, hbt, travelPreCommitHandlers_eq, travelPostCommitHandlers_eq, hdb, emit,
    closeItlist_eq]

theorem commit_empty_eq (w : World) (bt : Batch) (fw : Forward) (reply : Option Error)
    (hbt : bt.Len = 0) :
    commit bt fw reply w = (w, Outcome.ret none) := by
  simp [commit, hbt]

theorem commit_rejected_eq (w : World) (bt : Batch) (fw : Forward) (db : Database) (err : Error)
    (hdb : w.s.db = some db) (hbt : bt.Len ≠ 0) :
    commit bt fw (some err) w =
      ({ s := w.s,
         log := w.log
          ++ w.s.preCommitHandlers.map (fun h => { seen := w.s, call := Call.preCommit h fw })
          ++ [{ seen := w.s, call := Call.dbCommit db bt }] },
        Outcome.ret (some (Trace err))) := by
  simp [commit, hbt, travelPreCommitHandlers_eq, hdb, emit]

theorem commit_nil_facade_eq (bt : Batch) (fw : Forward) (reply : Option Error) (w : World)
    (hbt : bt.Len ≠ 0) (hdb : w.s.db = none) :
    commit bt fw reply w =
      ({ s := w.s,
         log := w.log ++ w.s.preCommitHandlers.map
          (fun h => { seen := w.s, call := Call.preCommit h fw }) },
        Outcome.panic) := by
  simp [commit, hbt, travelPreCommitHandlers_eq, hdb]

/-- C5. A commit of a batch of length 0, in any store state, returns nil and
leaves the store and the log of calls exactly as they were: no handler runs,
the facade is not asked, serial, pool and registry are untouched. -/
theorem commit_empty_noop (w : World) (bt : Batch) (fw : Forward) (reply : Option Error)
    (hbt : bt.Len = 0) :
    commit bt fw reply w = (w, Outcome.ret none) :=
  commit_empty_eq w bt fw reply hbt

theorem commit_empty_noop_witness :
    commit { Len := 0 } { id := 3 } (some (Error.engine 1))
        (putIterator { addr := 5, Iterator := { handle := 6, err := none }, serial := 0 }
          (New (some { handle := 1 }))).1 =
      ((putIterator { addr := 5, Iterator := { handle := 6, err := none }, serial := 0 }
          (New (some { handle := 1 }))).1, Outcome.ret none) :=
  commit_empty_noop _ { Len := 0 } { id := 3 } (some (Error.engine 1)) rfl

/-- C3. On an open store, a commit of a non-empty batch that the facade
rejects returns a non-nil error (the traced facade error); the store record
(serial, pool, registry, facade handle, every other field) is unchanged, and
the only calls made are the pre-commit handlers in registration order
followed by the facade Commit: no iterator is closed and no post-commit
handler runs. -/
theorem commit_rejected (w : World) (bt : Batch) (fw : Forward) (db : Database) (err : Error)
    (hdb : w.s.db = some db) (hbt : bt.Len ≠ 0) :
    (commit bt fw (some err) w).2 = Outcome.ret (some (Trace err)) ∧
    (commit bt fw (some err) w).1.s = w.s ∧
    (commit bt fw (some err) w).1.log =
      w.log ++ w.s.preCommitHandlers.map (fun h => { seen := w.s, call := Call.preCommit h fw })
        ++ [{ seen := w.s, call := Call.dbCommit db bt }] := by
  rw [commit_rejected_eq w bt fw db err hdb hbt]
  exact ⟨rfl, rfl, rfl⟩

/-- C4 (amended). On an open store, a commit of a non-empty batch that the
facade accepts returns nil.  The calls made are, in this order: the
pre-commit handlers with the forward record, the facade Commit, the close of
every pooled iterator (front first, each once, each seeing the old serial),
and the post-commit handlers with the same forward record, which see the
pool empty and serial already incremented.  The pool ends empty, serial ends
as serial + 1 modulo 2^64 (so serial + 1 unless it was 2^64 - 1), and the
registry and every other field are unchanged. -/
theorem commit_accepted (w : World) (bt : Batch) (fw : Forward) (db : Database)
    (hdb : w.s.db = some db) (hbt : bt.Len ≠ 0) :
    (commit bt fw none w).2 = Outcome.ret none ∧
    (commit bt fw none w).1.s =
      { w.s with itlist := [], serial := (w.s.serial + 1) % uint64Size } ∧
    (commit bt fw none w).1.log =
      w.log ++ w.s.preCommitHandlers.map (fun h => { seen := w.s, call := Call.preCommit h fw })
        ++ [{ seen := w.s, call := Call.dbCommit db bt }]
        ++ itCloseLog w.s w.s.itlist.length w.s.itlist
        ++ w.s.postCommitHandlers.map (fun h =>
            { seen := { w.s with itlist := [], serial := (w.s.serial + 1) % uint64Size },
              call := Call.postCommit h fw }) ∧
    (itCloseLog w.s w.s.itlist.length w.s.itlist).map Event.call =
      w.s.itlist.map Call.itClose ∧
    (∀ e ∈ itCloseLog w.s w.s.itlist.length w.s.itlist, e.seen.serial = w.s.serial) ∧
    (w.s.serial + 1 < uint64Size →
      (commit bt fw none w).1.s.serial = w.s.serial + 1) := by
  have hc := commit_accepted_eq w bt fw db hdb hbt
  refine ⟨by rw [hc], by rw [hc], by rw [hc], ?_, ?_, ?_⟩
  · rw [itCloseLog_calls, List.take_length]
  · intro e he
    obtain ⟨rest, hr⟩ := itCloseLog_seen _ _ _ e he
    rw [hr]
  · intro hlt
    rw [hc]
    exact Nat.mod_eq_of_lt hlt

/-! ## The iterator pool -/

/-- C6. In any store state, putIterator pushes the iterator on the front of
the pool without closing it exactly when its tag equals the serial and its
Error() is nil; otherwise it closes the iterator and leaves the pool as it
was.  Serial, registry, facade handle and all remaining fields are unchanged
in both cases, and the call returns. -/
theorem putIterator_spec (w : World) (it : storeIterator) :
    (putIterator it w).2 = Outcome.ret () ∧
    (putIterator it w).1.s = { w.s with itlist := (putIterator it w).1.s.itlist } ∧
    ((it.serial = w.s.serial ∧ it.Error = none) ↔
      ((putIterator it w).1.s.itlist = it :: w.s.itlist ∧ (putIterator it w).1.log = w.log)) ∧
    (¬ (it.serial = w.s.serial ∧ it.Error = none) ↔
      ((putIterator it w).1.s.itlist = w.s.itlist ∧
        (putIterator it w).1.log = w.log ++ [{ seen := w.s, call := Call.itClose it }])) := by
  by_cases h : it.serial = w.s.serial ∧ it.Error = none
  · simp [putIterator, h]
  · have hne : ¬ (w.s.itlist = it :: w.s.itlist) := fun hc => List.cons_ne_self _ _ hc.symm
    simp [putIterator, h, emit, hne]

/-- C7 (amended). The pool is a stack.  In any store state, an accepted
putIterator followed at once by getIterator returns the same iterator and
gives back exactly the world before the put, with no call made; on a
non-empty pool getIterator removes and returns the front entry, which is the
one pushed last, with no call made; after accepted puts of a list of
iterators the pool holds them in reverse order in front of the old content.
On an empty pool of an open store getIterator asks the facade for one
NewIterator, returns a new iterator tagged with the current serial, and the
pool stays empty. -/
theorem pool_lifo (w : World) (addr : Nat) (fresh : Iterator) :
    (∀ it : storeIterator, it.serial = w.s.serial → it.Error = none →
      getIterator addr fresh (putIterator it w).1 = (w, Outcome.ret it)) ∧
    (∀ (e : storeIterator) (rest : List storeIterator), w.s.itlist = e :: rest →
      getIterator addr fresh w =
        ({ w with s := { w.s with itlist := rest } }, Outcome.ret e)) ∧
    (∀ its : List storeIterator, (∀ it ∈ its, it.serial = w.s.serial ∧ it.Error = none) →
      run (its.map Op.putIterator) w =
        { w with s := { w.s with itlist := its.reverse ++ w.s.itlist } }) ∧
    (∀ db : Database, w.s.db = some db → w.s.itlist = [] →
      getIterator addr fresh w =
        ({ s := w.s, log := w.log ++ [{ seen := w.s, call := Call.dbNewIterator db }] },
          Outcome.ret { addr := addr, Iterator := fresh, serial := w.s.serial }) ∧
      (getIterator addr fresh w).1.s.itlist = []) := by
  refine ⟨?_, ?_, ?_, ?_⟩
  · intro it h1 h2
    simp [putIterator, getIterator, h1, h2]
  · intro e rest h
    simp [getIterator, h]
  · intro its
    induction its generalizing w with
    | nil => intro _; simp [run]
    | cons it its ih =>
      intro h
      have h1 := h it (List.mem_cons_self _ _)
      have hstep : step (Op.putIterator it) w =
          { w with s := { w.s with itlist := it :: w.s.itlist } } := by
        simp [step, putIterator, h1]
      simp only [List.map_cons, run, hstep]
      rw [ih]
      · simp
      · intro it2 h2
        exact h it2 (List.mem_cons_of_mem _ h2)
  · intro db hdb hl
    simp [getIterator, hl, hdb, emit]

/-! ## The gate and Close -/

theorem acquire_closed (w : World) (hmu : w.s.mu = false) (hdb : w.s.db = none) :
    acquire w = (w, Outcome.ret (some (Trace Error.ErrClosed))) := by
  rcases w with ⟨s, log⟩
  rcases s with ⟨mu, db, sps, its, serial, pre, post, del⟩
  simp only at hmu hdb
  subst hmu hdb
  simp [acquire]

theorem acquire_open (w : World) (db : Database) (hmu : w.s.mu = false)
    (hdb : w.s.db = some db) :
    acquire w = ({ w with s := { w.s with mu := true } }, Outcome.ret none) := by
  simp [acquire, hmu, hdb]

theorem Close_open_eq (w : World) (db : Database) (hmu : w.s.mu = false)
    (hdb : w.s.db = some db) :
    Close w =
      ({ s := { w.s with mu := false, db := none, splist := [], itlist := [] },
         log := w.log
          ++ spCloseLog { w.s with mu := true } w.s.splist.length w.s.splist
          ++ itCloseLog { w.s with mu := true, splist := [] } w.s.itlist.length w.s.itlist
          ++ [{ seen := { w.s with mu := true, splist := [], itlist := [] },
                call := Call.dbClose db }] },
        Outcome.ret ()) := by
  simp [Close, acquire_open w db hmu hdb, closeBody, closeSplist_eq, closeItlist_eq, hdb, emit,
    deferRelease, release]

theorem Close_closed_eq (w : World) (hmu : w.s.mu = false) (hdb : w.s.db = none) :
    Close w = (w, Outcome.ret ()) := by
  simp [Close, acquire_closed w hmu hdb]

theorem newCalls_Close_open (w : World) (db : Database) (hmu : w.s.mu = false)
    (hdb : w.s.db = some db) :
    newCalls Op.Close w =
      w.s.splist.map Call.spClose ++ w.s.itlist.map Call.itClose ++ [Call.dbClose db] := by
  simp [newCalls, step, Close_open_eq w db hmu hdb, spCloseLog_calls, itCloseLog_calls]

/-- C10. On an open store whose mutex is free, Close returns after closing
every registered snapshot once (front first), then every pooled iterator once
(front first), then the facade once, the facade being closed when registry
and pool are already empty; it leaves the registry and the pool empty and the
facade handle nil, leaves serial and every other field unchanged, and the
mutex is free on return. -/
theorem Close_open (w : World) (db : Database) (hmu : w.s.mu = false)
    (hdb : w.s.db = some db) :
    (Close w).2 = Outcome.ret () ∧
    (Close w).1.s = { w.s with mu := false, db := none, splist := [], itlist := [] } ∧
    (Close w).1.log =
      w.log
        ++ spCloseLog { w.s with mu := true } w.s.splist.length w.s.splist
        ++ itCloseLog { w.s with mu := true, splist := [] } w.s.itlist.length w.s.itlist
        ++ [{ seen := { w.s with mu := true, splist := [], itlist := [] },
              call := Call.dbClose db }] ∧
    newCalls Op.Close w =
      w.s.splist.map Call.spClose ++ w.s.itlist.map Call.itClose ++ [Call.dbClose db] ∧
    (Close w).1.s.serial = w.s.serial ∧
    (Close w).1.s.mu = false := by
  have hc := Close_open_eq w db hmu hdb
  exact ⟨by rw [hc], by rw [hc], by rw [hc], newCalls_Close_open w db hmu hdb, by rw [hc],
    by rw [hc]⟩

/-! ## The closed store -/

theorem Close_result_closed (w : World) (hmu : w.s.mu = false) :
    (Close w).1.s.mu = false ∧ (Close w).1.s.db = none := by
  cases hdb : w.s.db with
  | none => rw [Close_closed_eq w hmu hdb]; exact ⟨hmu, hdb⟩
  | some db => rw [Close_open_eq w db hmu hdb]; exact ⟨rfl, rfl⟩

/-- C8. On a closed store (facade handle nil, mutex free) every gate-guarded
public operation returns with the store and the log of calls exactly as they
were, so no facade call and no callback call is made and the mutex is free
again: NewSnapshotFunc (with or without a callback) and NewSnapshot return a
nil snapshot and an error whose cause is ErrClosed, Reset returns an error
whose cause is ErrClosed, Close and ReleaseSnapshot return silently.  Close
is idempotent: on any store with a free mutex a second Close changes nothing
after the first, and the two together close the facade of an open store
exactly once. -/
theorem closed_store_gate :
    (∀ w : World, w.s.mu = false → w.s.db = none →
      (∀ (f : Option Callback) (addr : Nat) (snap : Snapshot),
        NewSnapshotFunc f addr snap w =
          (w, Outcome.ret (none, some (Trace (Trace Error.ErrClosed))))) ∧
      (∀ (addr : Nat) (snap : Snapshot),
        NewSnapshot addr snap w =
          (w, Outcome.ret (none, some (Trace (Trace Error.ErrClosed))))) ∧
      (∀ reply : Option Error,
        Reset reply w = (w, Outcome.ret (some (Trace (Trace Error.ErrClosed))))) ∧
      Cause (Trace (Trace Error.ErrClosed)) = Error.ErrClosed ∧
      Close w = (w, Outcome.ret ()) ∧
      (∀ sp : StoreSnapshot, ReleaseSnapshot sp w = (w, Outcome.ret ()))) ∧
    (∀ w : World, w.s.mu = false →
      Close (Close w).1 = ((Close w).1, Outcome.ret ()) ∧
      (∀ db : Database, w.s.db = some db →
        ((Close (Close w).1).1.log.drop w.log.length).map Event.call =
          w.s.splist.map Call.spClose ++ w.s.itlist.map Call.itClose ++ [Call.dbClose db])) := by
  constructor
  · intro w hmu hdb
    have ha := acquire_closed w hmu hdb
    refine ⟨?_, ?_, ?_, rfl, Close_closed_eq w hmu hdb, ?_⟩
    · intro f addr snap
      simp [NewSnapshotFunc, ha]
    · intro addr snap
      simp [NewSnapshot, NewSnapshotFunc, ha]
    · intro reply
      simp [Reset, ha]
    · intro sp
      simp [ReleaseSnapshot, ha]
  · intro w hmu
    obtain ⟨h1, h2⟩ := Close_result_closed w hmu
    have hcc := Close_closed_eq (Close w).1 h1 h2
    refine ⟨hcc, ?_⟩
    intro db hdb
    rw [hcc]
    have hn := newCalls_Close_open w db hmu hdb
    simpa [newCalls, step] using hn

theorem closed_store_gate_witness :
    (Close (New (some { handle := 1 }))).1.s.mu = false ∧
    (Close (New (some { handle := 1 }))).1.s.db = none ∧
    Reset none (Close (New (some { handle := 1 }))).1 =
      ((Close (New (some { handle := 1 }))).1,
        Outcome.ret (some (Trace (Trace Error.ErrClosed)))) :=
  ⟨by decide, by decide,
    (closed_store_gate.1 (Close (New (some { handle := 1 }))).1 (by decide) (by decide)).2.2.1
      none⟩

/-- C9 (amended). After Close has completed (on a store whose mutex was
free) the facade handle is nil and the gate Acquire fails with an error whose
cause is ErrClosed, changing nothing.  commit and compact have no Closed
check of their own: a commit of an empty batch returns nil; a commit of a
non-empty batch runs the pre-commit handlers and then panics on the nil
facade handle; compact panics on the nil facade handle.  None of them
reaches the facade or changes any field of the store. -/
theorem after_Close (w : World) (hmu : w.s.mu = false) :
    (Close w).1.s.db = none ∧
    Acquire (Close w).1 = ((Close w).1, Outcome.ret (some (Trace Error.ErrClosed))) ∧
    Cause (Trace Error.ErrClosed) = Error.ErrClosed ∧
    (∀ (bt : Batch) (fw : Forward) (reply : Option Error), bt.Len = 0 →
      commit bt fw reply (Close w).1 = ((Close w).1, Outcome.ret none)) ∧
    (∀ (bt : Batch) (fw : Forward) (reply : Option Error), bt.Len ≠ 0 →
      commit bt fw reply (Close w).1 =
        ({ s := (Close w).1.s,
           log := (Close w).1.log ++ (Close w).1.s.preCommitHandlers.map
            (fun h => { seen := (Close w).1.s, call := Call.preCommit h fw }) },
          Outcome.panic)) ∧
    (∀ (start limit : List Nat) (reply : Option Error),
      compact start limit reply (Close w).1 = ((Close w).1, Outcome.panic)) := by
  obtain ⟨h1, h2⟩ := Close_result_closed w hmu
  refine ⟨h2, acquire_closed _ h1 h2, rfl, ?_, ?_, ?_⟩
  · intro bt fw reply hbt
    exact commit_empty_eq _ bt fw reply hbt
  · intro bt fw reply hbt
    exact commit_nil_facade_eq bt fw reply _ hbt h2
  · intro start limit reply
    simp [compact, h2]

/-- C9, the claim as stated fails: on the store made by New and then closed,
a commit of an empty batch returns nil, not the Closed error, and a commit of
a non-empty batch and a compact panic instead of returning an error. -/
theorem commit_after_Close_not_closed_error :
    (commit { Len := 0 } { id := 0 } none (Close (New (some { handle := 1 }))).1).2 =
      Outcome.ret none ∧
    (commit { Len := 1 } { id := 0 } none (Close (New (some { handle := 1 }))).1).2 =
      Outcome.panic ∧
    (compact [1] [2] none (Close (New (some { handle := 1 }))).1).2 = Outcome.panic := by
  decide

/-! ## One step: what it does to serial and to the pool -/

theorem any_map_false {α : Type} (f : α → Call) (p : Call → Bool) (l : List α)
    (h : ∀ a, p (f a) = false) : (l.map f).any p = false := by
  induction l with
  | nil => rfl
  | cons a l ih => simp [h a, ih]

theorem acquire_held (w : World) (hmu : w.s.mu = true) : acquire w = (w, Outcome.blocked) := by
  simp [acquire, hmu]

theorem Reset_held (reply : Option Error) (w : World) (hmu : w.s.mu = true) :
    Reset reply w = (w, Outcome.blocked) := by
  simp [Reset, acquire_held w hmu]

theorem Reset_closed (reply : Option Error) (w : World) (hmu : w.s.mu = false)
    (hdb : w.s.db = none) :
    Reset reply w = (w, Outcome.ret (some (Trace (Trace Error.ErrClosed)))) := by
  simp [Reset, acquire_closed w hmu hdb]

theorem Reset_failed_eq (err : Error) (w : World) (db : Database) (hmu : w.s.mu = false)
    (hdb : w.s.db = some db) :
    Reset (some err) w =
      ({ s := { w.s with mu := false, db := none, splist := [], itlist := [] },
         log := w.log
          ++ spCloseLog { w.s with mu := true } w.s.splist.length w.s.splist
          ++ itCloseLog { w.s with mu := true, splist := [] } w.s.itlist.length w.s.itlist
          ++ [{ seen := { w.s with mu := true, splist := [], itlist := [] },
                call := Call.dbClear db },
              { seen := { w.s with mu := true, splist := [], itlist := [] },
                call := Call.dbClose db }] },
        Outcome.ret (some (Trace err))) := by
  simp [Reset, acquire_open w db hmu hdb, closeSplist_eq, closeItlist_eq, hdb, emit,
    deferRelease, release]

theorem Reset_succeeded_eq (w : World) (db : Database) (hmu : w.s.mu = false)
    (hdb : w.s.db = some db) :
    Reset none w =
      ({ s := { w.s with mu := false, splist := [], itlist := [],
                         serial := (w.s.serial + 1) % uint64Size },
         log := w.log
          ++ spCloseLog { w.s with mu := true } w.s.splist.length w.s.splist
          ++ itCloseLog { w.s with mu := true, splist := [] } w.s.itlist.length w.s.itlist
          ++ [{ seen := { w.s with mu := true, splist := [], itlist := [] },
                call := Call.dbClear db }] },
        Outcome.ret none) := by
  simp [Reset, acquire_open w db hmu hdb, closeSplist_eq, closeItlist_eq, hdb, emit,
    deferRelease, release]

theorem bumps_commit (bt : Batch) (fw : Forward) (reply : Option Error) (w : World) :
    bumps (Op.commit bt fw reply) w =
      (decide (bt.Len ≠ 0) && w.s.db.isSome && reply.isNone) := by
  by_cases hbt : bt.Len = 0
  · simp [bumps, hbt]
  · cases hdb : w.s.db with
    | none =>
      have hc := commit_nil_facade_eq bt fw reply w hbt hdb
      simp [bumps, newCalls, step, hc, hbt, Call.isDbCommit]
    | some db =>
      cases reply with
      | none =>
        have hc := commit_accepted_eq w bt fw db hdb hbt
        simp [bumps, newCalls, step, hc, hbt, Call.isDbCommit]
      | some err =>
        simp [bumps]

theorem bumps_Reset (reply : Option Error) (w : World) :
    bumps (Op.Reset reply) w = (!w.s.mu && w.s.db.isSome && reply.isNone) := by
  cases hmu : w.s.mu with
  | true => simp [bumps, newCalls, step, Reset_held reply w hmu]
  | false =>
    cases hdb : w.s.db with
    | none => simp [bumps, newCalls, step, Reset_closed reply w hmu hdb]
    | some db =>
      cases reply with
      | none =>
        simp [bumps, newCalls, step, Reset_succeeded_eq w db hmu hdb, Call.isDbClear]
      | some err => simp [bumps]

theorem NewSnapshotFunc_held (f : Option Callback) (addr : Nat) (snap : Snapshot) (w : World)
    (hmu : w.s.mu = true) :
    NewSnapshotFunc f addr snap w = (w, Outcome.blocked) := by
  simp [NewSnapshotFunc, acquire_held w hmu]

theorem NewSnapshotFunc_closed (f : Option Callback) (addr : Nat) (snap : Snapshot) (w : World)
    (hmu : w.s.mu = false) (hdb : w.s.db = none) :
    NewSnapshotFunc f addr snap w =
      (w, Outcome.ret (none, some (Trace (Trace Error.ErrClosed)))) := by
  simp [NewSnapshotFunc, acquire_closed w hmu hdb]

theorem NewSnapshotFunc_open_eq (f : Option Callback) (addr : Nat) (snap : Snapshot) (w : World)
    (db : Database) (hmu : w.s.mu = false) (hdb : w.s.db = some db) :
    NewSnapshotFunc f addr snap w =
      ({ s := { w.s with mu := false, splist := w.s.splist ++ [{ addr := addr, sp := snap }] },
         log := w.log
          ++ [{ seen := { w.s with mu := true }, call := Call.dbNewSnapshot db }]
          ++ (match f with
              | some g =>
                [{ seen := { w.s with mu := true,
                                      splist := w.s.splist ++ [{ addr := addr, sp := snap }] },
                   call := Call.callback g }]
              | none => []) },
        Outcome.ret (some { addr := addr, sp := snap }, none)) := by
  cases f with
  | none => simp [NewSnapshotFunc, acquire_open w db hmu hdb, hdb, emit, deferRelease, release]
  | some g => simp [NewSnapshotFunc, acquire_open w db hmu hdb, hdb, emit, deferRelease, release]

theorem ReleaseSnapshot_held (sp : StoreSnapshot) (w : World) (hmu : w.s.mu = true) :
    ReleaseSnapshot sp w = (w, Outcome.blocked) := by
  simp [ReleaseSnapshot, acquire_held w hmu]

theorem ReleaseSnapshot_closed (sp : StoreSnapshot) (w : World) (hmu : w.s.mu = false)
    (hdb : w.s.db = none) :
    ReleaseSnapshot sp w = (w, Outcome.ret ()) := by
  simp [ReleaseSnapshot, acquire_closed w hmu hdb]

theorem ReleaseSnapshot_open_eq (sp : StoreSnapshot) (w : World) (db : Database)
    (hmu : w.s.mu = false) (hdb : w.s.db = some db) :
    ReleaseSnapshot sp w =
      ({ s := { w.s with
                mu := false,
                splist := (dropSnapshot sp w.s.splist.length
                  { w with s := { w.s with mu := true } }).s.splist },
         log := w.log
          ++ [{ seen := { w.s with
                          mu := true,
                          splist := (dropSnapshot sp w.s.splist.length
                            { w with s := { w.s with mu := true } }).s.splist },
                call := Call.spClose sp }] },
        Outcome.ret ()) := by
  have hf := dropSnapshot_frame sp w.s.splist.length { w with s := { w.s with mu := true } }
  simp only [ReleaseSnapshot, acquire_open w db hmu hdb]
  rw [hf]
  simp [emit, deferRelease, release]

theorem step_serial (op : Op) (w : World) :
    (step op w).s.serial =
      if bumps op w then (w.s.serial + 1) % uint64Size else w.s.serial := by
  cases op with
  | commit bt fw reply =>
    rw [bumps_commit]
    by_cases hbt : bt.Len = 0
    · simp [step, commit_empty_eq w bt fw reply hbt, hbt]
    · cases hdb : w.s.db with
      | none => simp [step, commit_nil_facade_eq bt fw reply w hbt hdb]
      | some db =>
        cases reply with
        | none => simp [step, commit_accepted_eq w bt fw db hdb hbt, hbt]
        | some err => simp [step, commit_rejected_eq w bt fw db err hdb hbt]
  | Reset reply =>
    rw [bumps_Reset]
    cases hmu : w.s.mu with
    | true => simp [step, Reset_held reply w hmu]
    | false =>
      cases hdb : w.s.db with
      | none => simp [step, Reset_closed reply w hmu hdb]
      | some db =>
        cases reply with
        | none => simp [step, Reset_succeeded_eq w db hmu hdb]
        | some err => simp [step, Reset_failed_eq err w db hmu hdb]
  | Close =>
    cases hmu : w.s.mu with
    | true => simp [step, bumps, Close, acquire_held w hmu]
    | false =>
      cases hdb : w.s.db with
      | none => simp [step, bumps, Close_closed_eq w hmu hdb]
      | some db => simp [step, bumps, Close_open_eq w db hmu hdb]
  | NewSnapshot addr snap =>
    cases hmu : w.s.mu with
    | true => simp [step, bumps, NewSnapshot, NewSnapshotFunc_held none addr snap w hmu]
    | false =>
      cases hdb : w.s.db with
      | none => simp [step, bumps, NewSnapshot, NewSnapshotFunc_closed none addr snap w hmu hdb]
      | some db =>
        simp [step, bumps, NewSnapshot, NewSnapshotFunc_open_eq none addr snap w db hmu hdb]
  | NewSnapshotFunc f addr snap =>
    cases hmu : w.s.mu with
    | true => simp [step, bumps, NewSnapshotFunc_held f addr snap w hmu]
    | false =>
      cases hdb : w.s.db with
      | none => simp [step, bumps, NewSnapshotFunc_closed f addr snap w hmu hdb]
      | some db => simp [step, bumps, NewSnapshotFunc_open_eq f addr snap w db hmu hdb]
  | ReleaseSnapshot sp =>
    cases hmu : w.s.mu with
    | true => simp [step, bumps, ReleaseSnapshot_held sp w hmu]
    | false =>
      cases hdb : w.s.db with
      | none => simp [step, bumps, ReleaseSnapshot_closed sp w hmu hdb]
      | some db => simp [step, bumps, ReleaseSnapshot_open_eq sp w db hmu hdb]
  | getIterator addr fresh =>
    simp only [step, bumps, getIterator]
    split
    · simp
    · split <;> simp [emit]
  | putIterator it =>
    simp only [step, bumps, putIterator]
    split <;> simp [emit]
  | compact start limit reply =>
    simp only [step, bumps, compact]
    split
    · simp
    · split <;> simp [emit]
  | SetDeleteIfExpired b =>
    simp only [step, bumps, SetDeleteIfExpired]
    split <;> simp
  | getRowValue key reply =>
    simp only [step, bumps, getRowValue]
    split <;> simp [emit]
  | Acquire =>
    simp only [step, bumps, Acquire, acquire]
    split
    · simp
    · split <;> simp
  | Release =>
    simp only [step, bumps, Release, release]
    split <;> simp

theorem step_poolTagged (op : Op) (w : World) (h : poolTagged w) : poolTagged (step op w) := by
  unfold poolTagged at *
  cases op with
  | commit bt fw reply =>
    by_cases hbt : bt.Len = 0
    · simpa [step, commit_empty_eq w bt fw reply hbt] using h
    · cases hdb : w.s.db with
      | none => simpa [step, commit_nil_facade_eq bt fw reply w hbt hdb] using h
      | some db =>
        cases reply with
        | none => simp [step, commit_accepted_eq w bt fw db hdb hbt]
        | some err => simpa [step, commit_rejected_eq w bt fw db err hdb hbt] using h
  | Reset reply =>
    cases hmu : w.s.mu with
    | true => simpa [step, Reset_held reply w hmu] using h
    | false =>
      cases hdb : w.s.db with
      | none => simpa [step, Reset_closed reply w hmu hdb] using h
      | some db =>
        cases reply with
        | none => simp [step, Reset_succeeded_eq w db hmu hdb]
        | some err => simp [step, Reset_failed_eq err w db hmu hdb]
  | Close =>
    cases hmu : w.s.mu with
    | true => simpa [step, Close, acquire_held w hmu] using h
    | false =>
      cases hdb : w.s.db with
      | none => simpa [step, Close_closed_eq w hmu hdb] using h
      | some db => simp [step, Close_open_eq w db hmu hdb]
  | NewSnapshot addr snap =>
    cases hmu : w.s.mu with
    | true => simpa [step, NewSnapshot, NewSnapshotFunc_held none addr snap w hmu] using h
    | false =>
      cases hdb : w.s.db with
      | none =>
        simpa [step, NewSnapshot, NewSnapshotFunc_closed none addr snap w hmu hdb] using h
      | some db =>
        simpa [step, NewSnapshot, NewSnapshotFunc_open_eq none addr snap w db hmu hdb] using h
  | NewSnapshotFunc f addr snap =>
    cases hmu : w.s.mu with
    | true => simpa [step, NewSnapshotFunc_held f addr snap w hmu] using h
    | false =>
      cases hdb : w.s.db with
      | none => simpa [step, NewSnapshotFunc_closed f addr snap w hmu hdb] using h
      | some db => simpa [step, NewSnapshotFunc_open_eq f addr snap w db hmu hdb] using h
  | ReleaseSnapshot sp =>
    cases hmu : w.s.mu with
    | true => simpa [step, ReleaseSnapshot_held sp w hmu] using h
    | false =>
      cases hdb : w.s.db with
      | none => simpa [step, ReleaseSnapshot_closed sp w hmu hdb] using h
      | some db => simpa [step, ReleaseSnapshot_open_eq sp w db hmu hdb] using h
  | getIterator addr fresh =>
    cases hl : w.s.itlist with
    | nil =>
      cases hdb : w.s.db with
      | none => simp [step, getIterator, hl, hdb]
      | some db => simp [step, getIterator, hl, hdb, emit]
    | cons e rest =>
      intro it hit
      have hit2 : it ∈ rest := by simpa [step, getIterator, hl] using hit
      have := h it (by rw [hl]; exact List.mem_cons_of_mem _ hit2)
      simpa [step, getIterator, hl] using this
  | putIterator it =>
    by_cases hc : it.serial = w.s.serial ∧ it.Error = none
    · intro it2 hit2
      have hm : it2 = it ∨ it2 ∈ w.s.itlist := by simpa [step, putIterator, hc] using hit2
      have hs : (step (Op.putIterator it) w).s.serial = w.s.serial := by
        simp [step, putIterator, hc]
      rw [hs]
      rcases hm with hm | hm
      · rw [hm]; exact hc.1
      · exact h it2 hm
    · have hs : step (Op.putIterator it) w = emit (Call.itClose it) w := by
        simp [step, putIterator, hc]
      rw [hs]
      exact h
  | compact start limit reply =>
    cases hdb : w.s.db with
    | none => simpa [step, compact, hdb] using h
    | some db =>
      cases reply with
      | none => simpa [step, compact, hdb, emit] using h
      | some err => simpa [step, compact, hdb, emit] using h
  | SetDeleteIfExpired b =>
    cases b with
    | true => simpa [step, SetDeleteIfExpired] using h
    | false => simpa [step, SetDeleteIfExpired] using h
  | getRowValue key reply =>
    cases hdb : w.s.db with
    | none => simpa [step, getRowValue, hdb] using h
    | some db => simpa [step, getRowValue, hdb, emit] using h
  | Acquire =>
    cases hmu : w.s.mu with
    | true => simpa [step, Acquire, acquire_held w hmu] using h
    | false =>
      cases hdb : w.s.db with
      | none => simpa [step, Acquire, acquire_closed w hmu hdb] using h
      | some db => simpa [step, Acquire, acquire_open w db hmu hdb] using h
  | Release =>
    cases hmu : w.s.mu with
    | true => simpa [step, Release, release, hmu] using h
    | false => simpa [step, Release, release, hmu] using h

theorem run_poolTagged (ops : List Op) (w : World) (h : poolTagged w) :
    poolTagged (run ops w) := by
  induction ops generalizing w with
  | nil => exact h
  | cons op ops ih => exact ih _ (step_poolTagged op w h)

theorem New_poolTagged (db : Option Database) : poolTagged (New db) := by
  intro it hit
  simp [New] at hit

theorem run_append (a b : List Op) (w : World) : run (a ++ b) w = run b (run a w) := by
  induction a generalizing w with
  | nil => rfl
  | cons op a ih => simp [run, ih]

theorem countBumps_append (a b : List Op) (w : World) :
    countBumps (a ++ b) w = countBumps a w + countBumps b (run a w) := by
  induction a generalizing w with
  | nil => simp [countBumps, run]
  | cons op a ih => simp [countBumps, run, ih, Nat.add_assoc]

theorem step_serial_lt (op : Op) (w : World) (h : w.s.serial < uint64Size) :
    (step op w).s.serial < uint64Size := by
  rw [step_serial]
  split
  · exact Nat.mod_lt _ (by unfold uint64Size; exact Nat.two_pow_pos 64)
  · exact h

theorem serial_run (ops : List Op) (w : World) (h : w.s.serial < uint64Size) :
    (run ops w).s.serial = (w.s.serial + countBumps ops w) % uint64Size := by
  induction ops generalizing w with
  | nil => simp [run, countBumps, Nat.mod_eq_of_lt h]
  | cons op ops ih =>
    simp only [run, countBumps]
    rw [ih _ (step_serial_lt op w h), step_serial]
    split
    · rw [Nat.mod_add_mod]
      congr 1
      omega
    · simp

/-! ## The generation counter over a sequence of calls -/

theorem uint64Size_pos : 0 < uint64Size := by
  unfold uint64Size
  exact Nat.two_pow_pos 64

theorem New_serial (db : Option Database) : (New db).s.serial = 0 := rfl

theorem serial_run_New (db : Option Database) (ops : List Op) :
    (run ops (New db)).s.serial = countBumps ops (New db) % uint64Size := by
  rw [serial_run ops (New db) (by rw [New_serial]; exact uint64Size_pos), New_serial,
    Nat.zero_add]

theorem bumps_iff (op : Op) (w : World) :
    bumps op w = true ↔
      (∃ bt fw, op = Op.commit bt fw none ∧ bt.Len ≠ 0 ∧ w.s.db.isSome = true) ∨
      (op = Op.Reset none ∧ w.s.mu = false ∧ w.s.db.isSome = true) := by
  cases op with
  | commit bt fw reply =>
    rw [bumps_commit]
    cases reply with
    | none => simp
    | some err => simp
  | Reset reply =>
    rw [bumps_Reset]
    cases reply with
    | none => simp
    | some err => simp
  | _ => simp [bumps]

/-- C1 (amended). For every sequence of store calls applied to a store made
by New: each further call either leaves serial as it is or, exactly when it
is a commit of a non-empty batch whose facade Commit is made and succeeds or
a Reset whose facade Clear is made and succeeds, replaces it by serial + 1
modulo 2^64; the final serial equals the number of such calls modulo 2^64;
and as long as that number is below 2^64 the final serial equals the number
itself and serial never decreases from one call to the next. -/
theorem serial_counts (db : Option Database) (ops : List Op) :
    (run ops (New db)).s.serial = countBumps ops (New db) % uint64Size ∧
    (∀ op : Op,
      (step op (run ops (New db))).s.serial =
        if bumps op (run ops (New db)) then ((run ops (New db)).s.serial + 1) % uint64Size
        else (run ops (New db)).s.serial) ∧
    (∀ (op : Op) (w : World),
      bumps op w = true ↔
        (∃ bt fw, op = Op.commit bt fw none ∧ bt.Len ≠ 0 ∧ w.s.db.isSome = true) ∨
        (op = Op.Reset none ∧ w.s.mu = false ∧ w.s.db.isSome = true)) ∧
    (countBumps ops (New db) < uint64Size →
      (run ops (New db)).s.serial = countBumps ops (New db) ∧
      ∀ (pre post : List Op) (op : Op), ops = pre ++ op :: post →
        (run pre (New db)).s.serial ≤ (run (pre ++ [op]) (New db)).s.serial) := by
  refine ⟨serial_run_New db ops, fun op => step_serial op _, bumps_iff, ?_⟩
  intro hlt
  refine ⟨by rw [serial_run_New, Nat.mod_eq_of_lt hlt], ?_⟩
  intro pre post op hops
  have hsplit : ops = (pre ++ [op]) ++ post := by simp [hops]
  have h1 : countBumps (pre ++ [op]) (New db) ≤ countBumps ops (New db) := by
    rw [hsplit, countBumps_append (pre ++ [op]) post]
    exact Nat.le_add_right _ _
  have h2 : countBumps pre (New db) ≤ countBumps (pre ++ [op]) (New db) := by
    rw [countBumps_append]
    exact Nat.le_add_right _ _
  rw [serial_run_New, serial_run_New, Nat.mod_eq_of_lt (by omega), Nat.mod_eq_of_lt (by omega)]
  exact h2

theorem serial_counts_witness :
    countBumps [Op.commit { Len := 2 } { id := 0 } none, Op.Reset none,
        Op.commit { Len := 0 } { id := 0 } none, Op.commit { Len := 1 } { id := 0 }
          (some (Error.engine 4)), Op.Reset (some (Error.engine 5)), Op.Reset none]
      (New (some { handle := 1 })) < uint64Size ∧
    (run [Op.commit { Len := 2 } { id := 0 } none, Op.Reset none,
        Op.commit { Len := 0 } { id := 0 } none, Op.commit { Len := 1 } { id := 0 }
          (some (Error.engine 4)), Op.Reset (some (Error.engine 5)), Op.Reset none]
      (New (some { handle := 1 }))).s.serial = 2 :=
  ⟨by decide,
    ((serial_counts (some { handle := 1 })
      [Op.commit { Len := 2 } { id := 0 } none, Op.Reset none,
        Op.commit { Len := 0 } { id := 0 } none, Op.commit { Len := 1 } { id := 0 }
          (some (Error.engine 4)), Op.Reset (some (Error.engine 5)), Op.Reset none]).2.2.2
      (by decide)).1.trans (by decide)⟩

theorem step_commit_db (bt : Batch) (fw : Forward) (reply : Option Error) (w : World) :
    (step (Op.commit bt fw reply) w).s.db = w.s.db := by
  by_cases hbt : bt.Len = 0
  · simp [step, commit_empty_eq w bt fw reply hbt]
  · cases hdb : w.s.db with
    | none => simp [step, commit_nil_facade_eq bt fw reply w hbt hdb, hdb]
    | some db =>
      cases reply with
      | none => simp [step, commit_accepted_eq w bt fw db hdb hbt, hdb]
      | some err => simp [step, commit_rejected_eq w bt fw db err hdb hbt, hdb]

theorem countBumps_replicate_commit (bt : Batch) (fw : Forward) (hbt : bt.Len ≠ 0) (n : Nat)
    (w : World) (hdb : w.s.db.isSome = true) :
    countBumps (List.replicate n (Op.commit bt fw none)) w = n := by
  induction n generalizing w with
  | zero => rfl
  | succ n ih =>
    rw [List.replicate_succ, countBumps, bumps_commit, ih _ (by rw [step_commit_db]; exact hdb)]
    simp [hbt, hdb, Nat.add_comm]

/-- C1, the claim as stated fails: after 2^64 successful commits of a
non-empty batch on a store made by New, serial is 0 while 2^64 calls counted,
and the last of these commits took serial from 2^64 - 1 down to 0. -/
theorem serial_wraps_around :
    (run (List.replicate (2 ^ 64) (Op.commit { Len := 1 } { id := 0 } none))
      (New (some { handle := 1 }))).s.serial = 0 ∧
    countBumps (List.replicate (2 ^ 64) (Op.commit { Len := 1 } { id := 0 } none))
      (New (some { handle := 1 })) = 2 ^ 64 ∧
    (run (List.replicate (2 ^ 64 - 1) (Op.commit { Len := 1 } { id := 0 } none))
      (New (some { handle := 1 }))).s.serial = 2 ^ 64 - 1 := by
  have hb : ({ Len := 1 } : Batch).Len ≠ 0 := by decide
  have hd : (New (some { handle := 1 })).s.db.isSome = true := rfl
  refine ⟨?_, countBumps_replicate_commit _ _ hb _ _ hd, ?_⟩
  · rw [serial_run_New, countBumps_replicate_commit _ _ hb _ _ hd]
    exact Nat.mod_self _
  · rw [serial_run_New, countBumps_replicate_commit _ _ hb _ _ hd]
    exact Nat.mod_eq_of_lt (by unfold uint64Size; omega)

/-! ## Concrete checks -/

theorem commit_rejected_witness :
    sampleHeld.s.db = some { handle := 1 } ∧ ({ Len := 2 } : Batch).Len ≠ 0 ∧
    (commit { Len := 2 } { id := 9 } (some (Error.engine 7)) sampleHeld).2 =
      Outcome.ret (some (Trace (Error.engine 7))) ∧
    (commit { Len := 2 } { id := 9 } (some (Error.engine 7)) sampleHeld).1.s = sampleHeld.s ∧
    ((commit { Len := 2 } { id := 9 } (some (Error.engine 7)) sampleHeld).1.log.map Event.call =
      [Call.preCommit { id := 1 } { id := 9 }, Call.preCommit { id := 2 } { id := 9 },
        Call.dbCommit { handle := 1 } { Len := 2 }]) :=
  ⟨rfl, by decide,
    (commit_rejected sampleHeld { Len := 2 } { id := 9 } { handle := 1 } (Error.engine 7) rfl
      (by decide)).1,
    (commit_rejected sampleHeld { Len := 2 } { id := 9 } { handle := 1 } (Error.engine 7) rfl
      (by decide)).2.1,
    by decide⟩

theorem commit_accepted_witness :
    sampleHeld.s.db = some { handle := 1 } ∧ ({ Len := 2 } : Batch).Len ≠ 0 ∧
    (commit { Len := 2 } { id := 9 } none sampleHeld).2 = Outcome.ret none ∧
    (commit { Len := 2 } { id := 9 } none sampleHeld).1.s =
      { sampleHeld.s with itlist := [], serial := 4 } ∧
    ((commit { Len := 2 } { id := 9 } none sampleHeld).1.log.map Event.call =
      [Call.preCommit { id := 1 } { id := 9 }, Call.preCommit { id := 2 } { id := 9 },
        Call.dbCommit { handle := 1 } { Len := 2 },
        Call.itClose { addr := 200, Iterator := { handle := 20, err := none }, serial := 3 },
        Call.itClose { addr := 201, Iterator := { handle := 21, err := none }, serial := 3 },
        Call.postCommit { id := 3 } { id := 9 }]) ∧
    ((commit { Len := 2 } { id := 9 } none sampleHeld).1.log.map (fun e => e.seen.serial) =
      [3, 3, 3, 3, 3, 4]) :=
  ⟨rfl, by decide,
    (commit_accepted sampleHeld { Len := 2 } { id := 9 } { handle := 1 } rfl (by decide)).1,
    (commit_accepted sampleHeld { Len := 2 } { id := 9 } { handle := 1 } rfl (by decide)).2.1.trans
      (by decide),
    by decide, by decide⟩

/-- C4, the claim as stated fails: on an open store whose serial is
2^64 - 1, an accepted commit of a non-empty batch returns nil and leaves
serial at 0, which is not the old serial plus one. -/
theorem commit_accepted_wraps :
    sampleLast.s.db = some { handle := 1 } ∧
    sampleLast.s.serial = 18446744073709551615 ∧
    (commit { Len := 2 } { id := 9 } none sampleLast).2 = Outcome.ret none ∧
    (commit { Len := 2 } { id := 9 } none sampleLast).1.s.serial = 0 ∧
    (commit { Len := 2 } { id := 9 } none sampleLast).1.s.serial ≠ sampleLast.s.serial + 1 := by
  decide

/-- C7, the claim as stated fails: on a closed store (facade handle nil) with
an empty pool, getIterator panics on the nil facade; it asks the facade for
nothing and returns no iterator. -/
theorem getIterator_closed_panics :
    (Close (New (some { handle := 1 }))).1.s.itlist = [] ∧
    (Close (New (some { handle := 1 }))).1.s.db = none ∧
    getIterator 5 { handle := 6, err := none } (Close (New (some { handle := 1 }))).1 =
      ((Close (New (some { handle := 1 }))).1, Outcome.panic) := by
  decide

theorem pool_lifo_witness :
    ({ addr := 202, Iterator := { handle := 22, err := none }, serial := 3 } :
      storeIterator).serial = sampleHeld.s.serial ∧
    getIterator 5 { handle := 6, err := none }
        (putIterator { addr := 202, Iterator := { handle := 22, err := none }, serial := 3 }
          sampleHeld).1 =
      (sampleHeld,
        Outcome.ret { addr := 202, Iterator := { handle := 22, err := none }, serial := 3 }) ∧
    getIterator 5 { handle := 6, err := none } (New (some { handle := 1 })) =
      ({ s := (New (some { handle := 1 })).s,
         log := [{ seen := (New (some { handle := 1 })).s,
                   call := Call.dbNewIterator { handle := 1 } }] },
        Outcome.ret { addr := 5, Iterator := { handle := 6, err := none }, serial := 0 }) :=
  ⟨rfl,
    (pool_lifo sampleHeld 5 { handle := 6, err := none }).1
      { addr := 202, Iterator := { handle := 22, err := none }, serial := 3 } rfl rfl,
    ((pool_lifo (New (some { handle := 1 })) 5 { handle := 6, err := none }).2.2.2
      { handle := 1 } rfl rfl).1⟩

theorem after_Close_witness :
    sampleFree.s.mu = false ∧
    Acquire (Close sampleFree).1 =
      ((Close sampleFree).1, Outcome.ret (some (Trace Error.ErrClosed))) ∧
    commit { Len := 0 } { id := 9 } none (Close sampleFree).1 =
      ((Close sampleFree).1, Outcome.ret none) ∧
    (commit { Len := 2 } { id := 9 } none (Close sampleFree).1).2 = Outcome.panic ∧
    compact [1] [2] none (Close sampleFree).1 = ((Close sampleFree).1, Outcome.panic) :=
  ⟨rfl, (after_Close sampleFree rfl).2.1,
    (after_Close sampleFree rfl).2.2.2.1 { Len := 0 } { id := 9 } none rfl,
    by decide,
    (after_Close sampleFree rfl).2.2.2.2.2 [1] [2] none⟩

theorem Close_open_witness :
    sampleFree.s.mu = false ∧ sampleFree.s.db = some { handle := 1 } ∧
    (Close sampleFree).2 = Outcome.ret () ∧
    (Close sampleFree).1.s =
      { sampleFree.s with db := none, splist := [], itlist := [] } ∧
    (Close sampleFree).1.log.map Event.call =
      [Call.spClose { addr := 100, sp := { handle := 10 } },
        Call.spClose { addr := 101, sp := { handle := 11 } },
        Call.itClose { addr := 200, Iterator := { handle := 20, err := none }, serial := 3 },
        Call.itClose { addr := 201, Iterator := { handle := 21, err := none }, serial := 3 },
        Call.dbClose { handle := 1 }] :=
  ⟨rfl, rfl, (Close_open sampleFree { handle := 1 } rfl rfl).1,
    (Close_open sampleFree { handle := 1 } rfl rfl).2.1,
    by decide⟩

theorem putIterator_spec_witness :
    (putIterator { addr := 202, Iterator := { handle := 22, err := none }, serial := 2 }
      sampleHeld).1.s.itlist = sampleHeld.s.itlist ∧
    (putIterator { addr := 202, Iterator := { handle := 22, err := none }, serial := 2 }
      sampleHeld).1.log =
      [{ seen := sampleHeld.s,
         call := Call.itClose
          { addr := 202, Iterator := { handle := 22, err := none }, serial := 2 } }] :=
  (putIterator_spec sampleHeld
    { addr := 202, Iterator := { handle := 22, err := none }, serial := 2 }).2.2.2.1 (by decide)

/-! ## Pooled iterators carry the current generation -/

theorem getIterator_ret_serial (addr : Nat) (fresh : Iterator) (w : World) (h : poolTagged w)
    (it : storeIterator) (hr : (getIterator addr fresh w).2 = Outcome.ret it) :
    it.serial = w.s.serial := by
  cases hl : w.s.itlist with
  | nil =>
    cases hdb : w.s.db with
    | none => simp [getIterator, hl, hdb] at hr
    | some db =>
      simp only [getIterator, hl, hdb, Outcome.ret.injEq] at hr
      rw [← hr]
  | cons e rest =>
    simp only [getIterator, hl, Outcome.ret.injEq] at hr
    rw [← hr]
    exact h e (by rw [hl]; exact List.mem_cons_self _ _)

theorem putIterator_stale_eq (it : storeIterator) (w : World) (h : it.serial ≠ w.s.serial) :
    putIterator it w =
      ({ s := w.s, log := w.log ++ [{ seen := w.s, call := Call.itClose it }] },
        Outcome.ret ()) := by
  simp [putIterator, h, emit]

theorem step_itlist_mem (op : Op) (w : World) (e : storeIterator)
    (he : e ∈ (step op w).s.itlist) : e ∈ w.s.itlist ∨ op = Op.putIterator e := by
  cases op with
  | commit bt fw reply =>
    left
    by_cases hbt : bt.Len = 0
    · simpa [step, commit_empty_eq w bt fw reply hbt] using he
    · cases hdb : w.s.db with
      | none => simpa [step, commit_nil_facade_eq bt fw reply w hbt hdb] using he
      | some db =>
        cases reply with
        | none => simp [step, commit_accepted_eq w bt fw db hdb hbt] at he
        | some err => simpa [step, commit_rejected_eq w bt fw db err hdb hbt] using he
  | Reset reply =>
    left
    cases hmu : w.s.mu with
    | true => simpa [step, Reset_held reply w hmu] using he
    | false =>
      cases hdb : w.s.db with
      | none => simpa [step, Reset_closed reply w hmu hdb] using he
      | some db =>
        cases reply with
        | none => simp [step, Reset_succeeded_eq w db hmu hdb] at he
        | some err => simp [step, Reset_failed_eq err w db hmu hdb] at he
  | Close =>
    left
    cases hmu : w.s.mu with
    | true => simpa [step, Close, acquire_held w hmu] using he
    | false =>
      cases hdb : w.s.db with
      | none => simpa [step, Close_closed_eq w hmu hdb] using he
      | some db => simp [step, Close_open_eq w db hmu hdb] at he
  | NewSnapshot addr snap =>
    left
    cases hmu : w.s.mu with
    | true => simpa [step, NewSnapshot, NewSnapshotFunc_held none addr snap w hmu] using he
    | false =>
      cases hdb : w.s.db with
      | none =>
        simpa [step, NewSnapshot, NewSnapshotFunc_closed none addr snap w hmu hdb] using he
      | some db =>
        simpa [step, NewSnapshot, NewSnapshotFunc_open_eq none addr snap w db hmu hdb] using he
  | NewSnapshotFunc f addr snap =>
    left
    cases hmu : w.s.mu with
    | true => simpa [step, NewSnapshotFunc_held f addr snap w hmu] using he
    | false =>
      cases hdb : w.s.db with
      | none => simpa [step, NewSnapshotFunc_closed f addr snap w hmu hdb] using he
      | some db => simpa [step, NewSnapshotFunc_open_eq f addr snap w db hmu hdb] using he
  | ReleaseSnapshot sp =>
    left
    cases hmu : w.s.mu with
    | true => simpa [step, ReleaseSnapshot_held sp w hmu] using he
    | false =>
      cases hdb : w.s.db with
      | none => simpa [step, ReleaseSnapshot_closed sp w hmu hdb] using he
      | some db => simpa [step, ReleaseSnapshot_open_eq sp w db hmu hdb] using he
  | getIterator addr fresh =>
    left
    cases hl : w.s.itlist with
    | nil =>
      cases hdb : w.s.db with
      | none => simp [step, getIterator, hl, hdb] at he
      | some db => simp [step, getIterator, hl, hdb, emit] at he
    | cons e2 rest =>
      have he2 : e ∈ rest := by simpa [step, getIterator, hl] using he
      exact List.mem_cons_of_mem _ he2
  | putIterator it =>
    by_cases hc : it.serial = w.s.serial ∧ it.Error = none
    · have hm : e = it ∨ e ∈ w.s.itlist := by simpa [step, putIterator, hc] using he
      rcases hm with hm | hm
      · right; rw [hm]
      · left; exact hm
    · left
      simpa [step, putIterator, hc, emit] using he
  | compact start limit reply =>
    left
    cases hdb : w.s.db with
    | none => simpa [step, compact, hdb] using he
    | some db =>
      cases reply with
      | none => simpa [step, compact, hdb, emit] using he
      | some err => simpa [step, compact, hdb, emit] using he
  | SetDeleteIfExpired b =>
    left
    cases b with
    | true => simpa [step, SetDeleteIfExpired] using he
    | false => simpa [step, SetDeleteIfExpired] using he
  | getRowValue key reply =>
    left
    cases hdb : w.s.db with
    | none => simpa [step, getRowValue, hdb] using he
    | some db => simpa [step, getRowValue, hdb, emit] using he
  | Acquire =>
    left
    cases hmu : w.s.mu with
    | true => simpa [step, Acquire, acquire_held w hmu] using he
    | false =>
      cases hdb : w.s.db with
      | none => simpa [step, Acquire, acquire_closed w hmu hdb] using he
      | some db => simpa [step, Acquire, acquire_open w db hmu hdb] using he
  | Release =>
    left
    cases hmu : w.s.mu with
    | true => simpa [step, Release, release, hmu] using he
    | false => simpa [step, Release, release, hmu] using he

theorem run_not_pooled (it : storeIterator) (later : List Op) (w : World)
    (hout : it ∉ w.s.itlist) (hput : Op.putIterator it ∉ later) :
    it ∉ (run later w).s.itlist := by
  induction later generalizing w with
  | nil => exact hout
  | cons op later ih =>
    have hop : op ≠ Op.putIterator it := fun h => hput (by rw [h]; exact List.mem_cons_self _ _)
    have hrest : Op.putIterator it ∉ later := fun h => hput (List.mem_cons_of_mem _ h)
    refine ih _ ?_ hrest
    intro hin
    rcases step_itlist_mem op w it hin with h | h
    · exact hout h
    · exact hop h

theorem getIterator_ret_cases (addr : Nat) (fresh : Iterator) (w : World) (it : storeIterator)
    (hr : (getIterator addr fresh w).2 = Outcome.ret it) :
    it ∈ w.s.itlist ∨
      (w.s.itlist = [] ∧ it = { addr := addr, Iterator := fresh, serial := w.s.serial }) := by
  cases hl : w.s.itlist with
  | nil =>
    cases hdb : w.s.db with
    | none => simp [getIterator, hl, hdb] at hr
    | some db =>
      simp only [getIterator, hl, hdb, Outcome.ret.injEq] at hr
      exact Or.inr ⟨rfl, hr.symm⟩
  | cons e rest =>
    simp only [getIterator, hl, Outcome.ret.injEq] at hr
    left
    rw [← hr]
    exact List.mem_cons_self _ _

/-- C2. In every state reached from New by any sequence of store calls,
every pooled iterator carries a tag equal to the current serial, and every
iterator that getIterator returns there, popped from the pool or newly made,
has a tag equal to the serial at that moment.  An iterator passed to
putIterator with a tag different from the current serial is closed and is
not put in the pool; whatever calls follow, as long as it is not passed to
putIterator again it is never in the pool, and no later getIterator returns
it: a later getIterator returns a pooled iterator, which is another one, or
an object it has just allocated, whose address is new. -/
theorem pool_generation (db : Option Database) (ops : List Op) :
    (∀ it ∈ (run ops (New db)).s.itlist, it.serial = (run ops (New db)).s.serial) ∧
    (∀ (addr : Nat) (fresh : Iterator) (it : storeIterator),
      (getIterator addr fresh (run ops (New db))).2 = Outcome.ret it →
        it.serial = (run ops (New db)).s.serial) ∧
    (∀ (it : storeIterator) (later : List Op) (addr : Nat) (fresh : Iterator),
      it.serial ≠ (run ops (New db)).s.serial →
      Op.putIterator it ∉ later →
        putIterator it (run ops (New db)) =
          ({ s := (run ops (New db)).s,
             log := (run ops (New db)).log ++
              [{ seen := (run ops (New db)).s, call := Call.itClose it }] },
            Outcome.ret ()) ∧
        it ∉ (run (ops ++ Op.putIterator it :: later) (New db)).s.itlist ∧
        (addr ≠ it.addr →
          (getIterator addr fresh (run (ops ++ Op.putIterator it :: later) (New db))).2 ≠
            Outcome.ret it) ∧
        ((getIterator addr fresh (run (ops ++ Op.putIterator it :: later) (New db))).2 =
            Outcome.ret it →
          (run (ops ++ Op.putIterator it :: later) (New db)).s.itlist = [] ∧
          it = { addr := addr, Iterator := fresh,
                 serial := (run (ops ++ Op.putIterator it :: later) (New db)).s.serial })) := by
  have hinv : ∀ l : List Op, poolTagged (run l (New db)) :=
    fun l => run_poolTagged l _ (New_poolTagged db)
  refine ⟨hinv ops, ?_, ?_⟩
  · intro addr fresh it hr
    exact getIterator_ret_serial addr fresh _ (hinv ops) it hr
  · intro it later addr fresh hne hput
    have hstale := putIterator_stale_eq it (run ops (New db)) hne
    have hout0 : it ∉ (step (Op.putIterator it) (run ops (New db))).s.itlist := by
      have hs : (step (Op.putIterator it) (run ops (New db))).s = (run ops (New db)).s := by
        simp [step, hstale]
      rw [hs]
      intro hin
      exact hne (hinv ops it hin)
    have hrun : run (ops ++ Op.putIterator it :: later) (New db) =
        run later (step (Op.putIterator it) (run ops (New db))) := by
      rw [run_append]; rfl
    have hout : it ∉ (run (ops ++ Op.putIterator it :: later) (New db)).s.itlist := by
      rw [hrun]
      exact run_not_pooled it later _ hout0 hput
    refine ⟨hstale, hout, ?_, ?_⟩
    · intro haddr hr
      rcases getIterator_ret_cases addr fresh _ it hr with h | h
      · exact hout h
      · exact haddr (by rw [h.2])
    · intro hr
      rcases getIterator_ret_cases addr fresh _ it hr with h | h
      · exact absurd h hout
      · exact h

theorem pool_generation_witness :
    ({ addr := 5, Iterator := { handle := 6, err := none }, serial := 0 } :
      storeIterator).serial ≠
      (run [Op.getIterator 5 { handle := 6, err := none },
            Op.commit { Len := 1 } { id := 0 } none] (New (some { handle := 1 }))).s.serial ∧
    Op.putIterator { addr := 5, Iterator := { handle := 6, err := none }, serial := 0 } ∉
      [Op.commit { Len := 1 } { id := 0 } none, Op.getIterator 7 { handle := 8, err := none },
        Op.putIterator { addr := 7, Iterator := { handle := 8, err := none }, serial := 2 }] ∧
    (9 : Nat) ≠
      ({ addr := 5, Iterator := { handle := 6, err := none }, serial := 0 } :
        storeIterator).addr ∧
    (getIterator 9 { handle := 10, err := none }
      (run ([Op.getIterator 5 { handle := 6, err := none },
              Op.commit { Len := 1 } { id := 0 } none] ++
            Op.putIterator { addr := 5, Iterator := { handle := 6, err := none }, serial := 0 } ::
              [Op.commit { Len := 1 } { id := 0 } none,
                Op.getIterator 7 { handle := 8, err := none },
                Op.putIterator
                  { addr := 7, Iterator := { handle := 8, err := none }, serial := 2 }])
        (New (some { handle := 1 })))).2 ≠
      Outcome.ret { addr := 5, Iterator := { handle := 6, err := none }, serial := 0 } :=
  ⟨by decide, by decide, by decide,
    ((pool_generation (some { handle := 1 })
      [Op.getIterator 5 { handle := 6, err := none },
        Op.commit { Len := 1 } { id := 0 } none]).2.2
      { addr := 5, Iterator := { handle := 6, err := none }, serial := 0 }
      [Op.commit { Len := 1 } { id := 0 } none, Op.getIterator 7 { handle := 8, err := none },
        Op.putIterator { addr := 7, Iterator := { handle := 8, err := none }, serial := 2 }]
      9 { handle := 10, err := none } (by decide) (by decide)).2.2.1 (by decide)⟩

/-! ## The snapshot registry -/

theorem ReleaseSnapshot_filter_eq (sp : StoreSnapshot) (w : World) (db : Database)
    (hmu : w.s.mu = false) (hdb : w.s.db = some db) :
    ReleaseSnapshot sp w =
      ({ s := { w.s with
                mu := false,
                splist := w.s.splist.filter (fun v => decide (v.addr ≠ sp.addr)) },
         log := w.log
          ++ [{ seen := { w.s with
                          mu := true,
                          splist := w.s.splist.filter (fun v => decide (v.addr ≠ sp.addr)) },
                call := Call.spClose sp }] },
        Outcome.ret ()) := by
  have h := dropSnapshot_length_eq sp { w with s := { w.s with mu := true } }
  simp only at h
  rw [ReleaseSnapshot_open_eq sp w db hmu hdb, h]

/-- C11. On an open store whose mutex is free, ReleaseSnapshot(sp) returns
with the registry equal to the old registry without the entries whose
address is that of sp, the other entries kept in their order; it then closes
sp once, the only call it makes, seen with the registry already filtered and
the mutex held.  Serial, pool, facade handle and every other field are
unchanged and the mutex is free on return. -/
theorem ReleaseSnapshot_open (sp : StoreSnapshot) (w : World) (db : Database)
    (hmu : w.s.mu = false) (hdb : w.s.db = some db) :
    (ReleaseSnapshot sp w).2 = Outcome.ret () ∧
    (ReleaseSnapshot sp w).1.s =
      { w.s with splist := w.s.splist.filter (fun v => decide (v.addr ≠ sp.addr)) } ∧
    (ReleaseSnapshot sp w).1.log =
      w.log ++ [{ seen := { w.s with
                            mu := true,
                            splist := w.s.splist.filter (fun v => decide (v.addr ≠ sp.addr)) },
                  call := Call.spClose sp }] ∧
    (ReleaseSnapshot sp w).1.s.serial = w.s.serial ∧
    (ReleaseSnapshot sp w).1.s.itlist = w.s.itlist ∧
    (ReleaseSnapshot sp w).1.s.db = w.s.db ∧
    (∀ v, v ∈ (ReleaseSnapshot sp w).1.s.splist ↔ v ∈ w.s.splist ∧ v.addr ≠ sp.addr) ∧
    List.Sublist (ReleaseSnapshot sp w).1.s.splist w.s.splist := by
  have hc := ReleaseSnapshot_filter_eq sp w db hmu hdb
  refine ⟨by rw [hc], ?_, by rw [hc], by rw [hc], by rw [hc], by rw [hc], ?_, ?_⟩
  · rw [hc]
    rcases w with ⟨s, log⟩
    rcases s with ⟨mu, d, sps, its, serial, pre, post, del⟩
    simp only at hmu
    subst hmu
    rfl
  · intro v
    rw [hc]
    simp
  · rw [hc]
    exact List.filter_sublist _

theorem ReleaseSnapshot_open_witness :
    sampleFree.s.mu = false ∧ sampleFree.s.db = some { handle := 1 } ∧
    (ReleaseSnapshot { addr := 100, sp := { handle := 10 } } sampleFree).1.s =
      { sampleFree.s with splist := [{ addr := 101, sp := { handle := 11 } }] } ∧
    (ReleaseSnapshot { addr := 100, sp := { handle := 10 } } sampleFree).1.log.map Event.call =
      [Call.spClose { addr := 100, sp := { handle := 10 } }] :=
  ⟨rfl, rfl,
    (ReleaseSnapshot_open { addr := 100, sp := { handle := 10 } } sampleFree { handle := 1 }
      rfl rfl).2.1.trans (by decide),
    by decide⟩

/-- C12. On an open store whose mutex is free, releasing the same snapshot
twice leaves the store exactly as one release does.  Each release shortens
the registry by exactly the number of entries with the address of sp: none
on the second release, and none when no entry has that address, in which
case the registry is unchanged.  Entries with another address are all kept,
each as often as before, and the only call either release makes is the close
of sp. -/
theorem ReleaseSnapshot_twice (sp : StoreSnapshot) (w : World) (db : Database)
    (hmu : w.s.mu = false) (hdb : w.s.db = some db) :
    (ReleaseSnapshot sp (ReleaseSnapshot sp w).1).1.s = (ReleaseSnapshot sp w).1.s ∧
    (ReleaseSnapshot sp w).1.s.splist.length +
        w.s.splist.countP (fun v => decide (v.addr = sp.addr)) = w.s.splist.length ∧
    (ReleaseSnapshot sp w).1.s.splist.countP (fun v => decide (v.addr = sp.addr)) = 0 ∧
    (ReleaseSnapshot sp (ReleaseSnapshot sp w).1).1.s.splist.length =
      (ReleaseSnapshot sp w).1.s.splist.length ∧
    ((∀ v ∈ w.s.splist, v.addr ≠ sp.addr) → (ReleaseSnapshot sp w).1.s.splist = w.s.splist) ∧
    (∀ v : StoreSnapshot, v.addr ≠ sp.addr →
      (ReleaseSnapshot sp w).1.s.splist.count v = w.s.splist.count v) ∧
    newCalls (Op.ReleaseSnapshot sp) w = [Call.spClose sp] ∧
    newCalls (Op.ReleaseSnapshot sp) (ReleaseSnapshot sp w).1 = [Call.spClose sp] := by
  have hc1 := ReleaseSnapshot_filter_eq sp w db hmu hdb
  have hmu1 : (ReleaseSnapshot sp w).1.s.mu = false := by rw [hc1]
  have hdb1 : (ReleaseSnapshot sp w).1.s.db = some db := by rw [hc1]; exact hdb
  have hc2 := ReleaseSnapshot_filter_eq sp (ReleaseSnapshot sp w).1 db hmu1 hdb1
  have hl1 : (ReleaseSnapshot sp w).1.s.splist =
      w.s.splist.filter (fun v => decide (v.addr ≠ sp.addr)) := by rw [hc1]
  refine ⟨?_, ?_, ?_, ?_, ?_, ?_, ?_, ?_⟩
  · rw [hc2, hl1]
    rw [hc1]
    simp [List.filter_filter]
  · rw [hl1]
    induction w.s.splist with
    | nil => rfl
    | cons v rest ih =>
      by_cases hv : v.addr = sp.addr
      · simp [hv, List.countP_cons] at ih ⊢
        omega
      · simp [hv, List.countP_cons] at ih ⊢
        omega
  · rw [hl1, List.countP_filter]
    simp
  · rw [hc2, hl1]
    simp [List.filter_filter]
  · intro hall
    rw [hl1, List.filter_eq_self]
    intro v hv
    simpa using hall v hv
  · intro v hv
    rw [hl1]
    exact List.count_filter (by simpa using hv)
  · simp [newCalls, step, hc1]
  · simp [newCalls, step, hc2]

theorem ReleaseSnapshot_twice_witness :
    sampleFree.s.mu = false ∧ sampleFree.s.db = some { handle := 1 } ∧
    (ReleaseSnapshot { addr := 100, sp := { handle := 10 } }
      (ReleaseSnapshot { addr := 100, sp := { handle := 10 } } sampleFree).1).1.s =
      (ReleaseSnapshot { addr := 100, sp := { handle := 10 } } sampleFree).1.s ∧
    (ReleaseSnapshot { addr := 100, sp := { handle := 10 } } sampleFree).1.s.splist.length + 1 =
      sampleFree.s.splist.length :=
  ⟨rfl, rfl,
    (ReleaseSnapshot_twice { addr := 100, sp := { handle := 10 } } sampleFree { handle := 1 }
      rfl rfl).1,
    by decide⟩

/-! ## Open and Closed -/

theorem step_db (op : Op) (w : World) :
    (step op w).s.db = w.s.db ∨
      ((step op w).s.db = none ∧ w.s.mu = false ∧
        (op = Op.Close ∨ ∃ err, op = Op.Reset (some err))) := by
  cases op with
  | commit bt fw reply => exact Or.inl (step_commit_db bt fw reply w)
  | Reset reply =>
    cases hmu : w.s.mu with
    | true => left; simp [step, Reset_held reply w hmu]
    | false =>
      cases hdb : w.s.db with
      | none => left; simp [step, Reset_closed reply w hmu hdb, hdb]
      | some db =>
        cases reply with
        | none => left; simp [step, Reset_succeeded_eq w db hmu hdb, hdb]
        | some err =>
          right
          exact ⟨by simp [step, Reset_failed_eq err w db hmu hdb], rfl, Or.inr ⟨err, rfl⟩⟩
  | Close =>
    cases hmu : w.s.mu with
    | true => left; simp [step, Close, acquire_held w hmu]
    | false =>
      cases hdb : w.s.db with
      | none => left; simp [step, Close_closed_eq w hmu hdb, hdb]
      | some db =>
        right
        exact ⟨by simp [step, Close_open_eq w db hmu hdb], rfl, Or.inl rfl⟩
  | NewSnapshot addr snap =>
    left
    cases hmu : w.s.mu with
    | true => simp [step, NewSnapshot, NewSnapshotFunc_held none addr snap w hmu]
    | false =>
      cases hdb : w.s.db with
      | none => simp [step, NewSnapshot, NewSnapshotFunc_closed none addr snap w hmu hdb, hdb]
      | some db =>
        simp [step, NewSnapshot, NewSnapshotFunc_open_eq none addr snap w db hmu hdb, hdb]
  | NewSnapshotFunc f addr snap =>
    left
    cases hmu : w.s.mu with
    | true => simp [step, NewSnapshotFunc_held f addr snap w hmu]
    | false =>
      cases hdb : w.s.db with
      | none => simp [step, NewSnapshotFunc_closed f addr snap w hmu hdb, hdb]
      | some db => simp [step, NewSnapshotFunc_open_eq f addr snap w db hmu hdb, hdb]
  | ReleaseSnapshot sp =>
    left
    cases hmu : w.s.mu with
    | true => simp [step, ReleaseSnapshot_held sp w hmu]
    | false =>
      cases hdb : w.s.db with
      | none => simp [step, ReleaseSnapshot_closed sp w hmu hdb, hdb]
      | some db => simp [step, ReleaseSnapshot_open_eq sp w db hmu hdb, hdb]
  | getIterator addr fresh =>
    left
    simp only [step, getIterator]
    split
    · rfl
    · split <;> simp [emit]
  | putIterator it =>
    left
    simp only [step, putIterator]
    split <;> simp [emit]
  | compact start limit reply =>
    left
    simp only [step, compact]
    split
    · rfl
    · split <;> simp [emit]
  | SetDeleteIfExpired b =>
    left
    simp only [step, SetDeleteIfExpired]
    split <;> rfl
  | getRowValue key reply =>
    left
    simp only [step, getRowValue]
    split <;> simp [emit]
  | Acquire =>
    left
    simp only [step, Acquire, acquire]
    split
    · rfl
    · split <;> rfl
  | Release =>
    left
    simp only [step, Release, release]
    split <;> rfl

theorem step_closed_free (op : Op) (w : World) (hdb : w.s.db = none) (hmu : w.s.mu = false) :
    (step op w).s.db = none ∧ (step op w).s.mu = false := by
  cases op with
  | commit bt fw reply =>
    by_cases hbt : bt.Len = 0
    · simp [step, commit_empty_eq w bt fw reply hbt, hdb, hmu]
    · simp [step, commit_nil_facade_eq bt fw reply w hbt hdb, hdb, hmu]
  | Reset reply => simp [step, Reset_closed reply w hmu hdb, hdb, hmu]
  | Close => simp [step, Close_closed_eq w hmu hdb, hdb, hmu]
  | NewSnapshot addr snap =>
    simp [step, NewSnapshot, NewSnapshotFunc_closed none addr snap w hmu hdb, hdb, hmu]
  | NewSnapshotFunc f addr snap =>
    simp [step, NewSnapshotFunc_closed f addr snap w hmu hdb, hdb, hmu]
  | ReleaseSnapshot sp => simp [step, ReleaseSnapshot_closed sp w hmu hdb, hdb, hmu]
  | getIterator addr fresh =>
    cases hl : w.s.itlist with
    | nil => simp [step, getIterator, hl, hdb, hmu]
    | cons e rest => simp [step, getIterator, hl, hdb, hmu]
  | putIterator it =>
    simp only [step, putIterator]
    split <;> simp [emit, hdb, hmu]
  | compact start limit reply => simp [step, compact, hdb, hmu]
  | SetDeleteIfExpired b =>
    cases b with
    | true => simp [step, SetDeleteIfExpired, hdb, hmu]
    | false => simp [step, SetDeleteIfExpired, hdb, hmu]
  | getRowValue key reply => simp [step, getRowValue, hdb, hmu]
  | Acquire => simp [step, Acquire, acquire_closed w hmu hdb, hdb, hmu]
  | Release => simp [step, Release, release, hmu, hdb]

theorem run_closed_free (ops : List Op) (w : World) (hdb : w.s.db = none)
    (hmu : w.s.mu = false) :
    (run ops w).s.db = none ∧ (run ops w).s.mu = false := by
  induction ops generalizing w with
  | nil => exact ⟨hdb, hmu⟩
  | cons op ops ih =>
    obtain ⟨h1, h2⟩ := step_closed_free op w hdb hmu
    exact ih _ h1 h2

/-- C18. The facade handle never comes back: in every store state whose
facade handle is nil, after any store call (Close, NewSnapshot,
NewSnapshotFunc, ReleaseSnapshot, Reset, SetDeleteIfExpired, putIterator, a
commit of an empty batch, and every other call as well) the handle is still
nil, and so it is after any sequence of calls.  A call that finds the handle
non-nil and leaves it nil is a Close, or a Reset whose facade Clear returned
an error, made with the mutex free; and on an open store with a free mutex
each of these two does leave the handle nil. -/
theorem open_closed_one_way :
    (∀ (op : Op) (w : World), w.s.db = none → (step op w).s.db = none) ∧
    (∀ (ops : List Op) (w : World), w.s.db = none → (run ops w).s.db = none) ∧
    (∀ (bt : Batch) (fw : Forward) (reply : Option Error) (w : World),
      w.s.db = none → bt.Len = 0 → (commit bt fw reply w).1.s.db = none) ∧
    (∀ (op : Op) (w : World) (db : Database), w.s.db = some db → (step op w).s.db = none →
      (op = Op.Close ∨ ∃ err, op = Op.Reset (some err) ∧
        Call.dbClear db ∈ newCalls op w) ∧ w.s.mu = false) ∧
    (∀ (w : World) (db : Database), w.s.db = some db → w.s.mu = false →
      (Close w).1.s.db = none ∧ ∀ err, (Reset (some err) w).1.s.db = none) := by
  have h1 : ∀ (op : Op) (w : World), w.s.db = none → (step op w).s.db = none := by
    intro op w hdb
    rcases step_db op w with h | h
    · rw [h, hdb]
    · exact h.1
  refine ⟨h1, ?_, ?_, ?_, ?_⟩
  · intro ops
    induction ops with
    | nil => intro w hdb; exact hdb
    | cons op ops ih => intro w hdb; exact ih _ (h1 op w hdb)
  · intro bt fw reply w hdb hbt
    rw [commit_empty_eq w bt fw reply hbt]
    exact hdb
  · intro op w db hdb hnone
    rcases step_db op w with h | h
    · rw [h, hdb] at hnone
      exact absurd hnone (by simp)
    · refine ⟨?_, h.2.1⟩
      rcases h.2.2 with hc | ⟨err, he⟩
      · exact Or.inl hc
      · refine Or.inr ⟨err, he, ?_⟩
        subst he
        simp [newCalls, step, Reset_failed_eq err w db h.2.1 hdb]
  · intro w db hdb hmu
    refine ⟨by rw [Close_open_eq w db hmu hdb], ?_⟩
    intro err
    rw [Reset_failed_eq err w db hmu hdb]

theorem open_closed_one_way_witness :
    (Close sampleFree).1.s.db = none ∧
    (run [Op.Reset none, Op.NewSnapshot 1 { handle := 2 }, Op.Acquire,
          Op.putIterator { addr := 5, Iterator := { handle := 6, err := none }, serial := 3 },
          Op.commit { Len := 0 } { id := 0 } none] (Close sampleFree).1).s.db = none :=
  ⟨by decide, open_closed_one_way.2.1 _ (Close sampleFree).1 (by decide)⟩

/-! ## NewSnapshotFunc, Reset, compact -/

/-- C13. On an open store whose mutex is free, NewSnapshotFunc(f) asks the
facade for one NewSnapshot, appends the new snapshot as the last entry of
the registry with the earlier entries kept in order, then, if f is not nil,
calls f once, f seeing the snapshot already registered and the mutex still
held; it makes no other call and returns that snapshot with a nil error.
Serial, pool, facade handle and every other field are unchanged and the
mutex is free on return.  NewSnapshot() is NewSnapshotFunc(nil). -/
theorem NewSnapshotFunc_open (f : Option Callback) (addr : Nat) (snap : Snapshot) (w : World)
    (db : Database) (hmu : w.s.mu = false) (hdb : w.s.db = some db) :
    (NewSnapshotFunc f addr snap w).2 =
      Outcome.ret (some { addr := addr, sp := snap }, none) ∧
    (NewSnapshotFunc f addr snap w).1.s =
      { w.s with splist := w.s.splist ++ [{ addr := addr, sp := snap }] } ∧
    (NewSnapshotFunc f addr snap w).1.log =
      w.log
        ++ [{ seen := { w.s with mu := true }, call := Call.dbNewSnapshot db }]
        ++ (match f with
            | some g =>
              [{ seen := { w.s with mu := true,
                                    splist := w.s.splist ++ [{ addr := addr, sp := snap }] },
                 call := Call.callback g }]
            | none => []) ∧
    newCalls (Op.NewSnapshotFunc f addr snap) w =
      Call.dbNewSnapshot db :: (match f with
        | some g => [Call.callback g]
        | none => []) ∧
    (NewSnapshotFunc f addr snap w).1.s.splist.length = w.s.splist.length + 1 ∧
    (NewSnapshotFunc f addr snap w).1.s.serial = w.s.serial ∧
    (NewSnapshotFunc f addr snap w).1.s.itlist = w.s.itlist ∧
    NewSnapshot addr snap w = NewSnapshotFunc none addr snap w := by
  have hc := NewSnapshotFunc_open_eq f addr snap w db hmu hdb
  refine ⟨by rw [hc], ?_, by rw [hc], ?_, by rw [hc]; simp, by rw [hc], by rw [hc], rfl⟩
  · rw [hc]
    rcases w with ⟨s, log⟩
    rcases s with ⟨mu, d, sps, its, serial, pre, post, del⟩
    simp only at hmu
    subst hmu
    rfl
  · cases f with
    | none => simp [newCalls, step, hc]
    | some g => simp [newCalls, step, hc]

theorem NewSnapshotFunc_open_witness :
    sampleFree.s.mu = false ∧ sampleFree.s.db = some { handle := 1 } ∧
    (NewSnapshotFunc (some { id := 4 }) 102 { handle := 12 } sampleFree).2 =
      Outcome.ret (some { addr := 102, sp := { handle := 12 } }, none) ∧
    (NewSnapshotFunc (some { id := 4 }) 102 { handle := 12 } sampleFree).1.s.splist =
      [{ addr := 100, sp := { handle := 10 } }, { addr := 101, sp := { handle := 11 } },
        { addr := 102, sp := { handle := 12 } }] ∧
    (NewSnapshotFunc (some { id := 4 }) 102 { handle := 12 } sampleFree).1.log.map
        (fun e => (e.seen.mu, e.seen.splist.length, e.call)) =
      [(true, 2, Call.dbNewSnapshot { handle := 1 }), (true, 3, Call.callback { id := 4 })] :=
  ⟨rfl, rfl,
    (NewSnapshotFunc_open (some { id := 4 }) 102 { handle := 12 } sampleFree { handle := 1 }
      rfl rfl).1,
    by decide, by decide⟩

/-- C17. On an open store compact asks the facade for one Compact with the
given start and limit and makes no other call; it returns a non-nil error,
the traced facade error, exactly when the facade returned an error.  Whether
it succeeds or fails, the store record (serial, pool, registry, facade
handle, every other field) is unchanged. -/
theorem compact_open (start limit : List Nat) (reply : Option Error) (w : World) (db : Database)
    (hdb : w.s.db = some db) :
    (compact start limit reply w).1.s = w.s ∧
    (compact start limit reply w).1.log =
      w.log ++ [{ seen := w.s, call := Call.dbCompact db start limit }] ∧
    (compact start limit reply w).2 = Outcome.ret (reply.map Trace) ∧
    ((∃ e, (compact start limit reply w).2 = Outcome.ret (some e)) ↔ ∃ err, reply = some err) ∧
    ((compact start limit reply w).2 = Outcome.ret none ↔ reply = none) := by
  cases reply with
  | none => simp [compact, hdb, emit]
  | some err => simp [compact, hdb, emit]

theorem compact_open_witness :
    sampleHeld.s.db = some { handle := 1 } ∧
    compact [1] [2, 3] (some (Error.engine 8)) sampleHeld =
      ({ s := sampleHeld.s,
         log := [{ seen := sampleHeld.s, call := Call.dbCompact { handle := 1 } [1] [2, 3] }] },
        Outcome.ret (some (Trace (Error.engine 8)))) ∧
    (compact [1] [2, 3] none sampleHeld).1.s = sampleHeld.s :=
  ⟨rfl, by decide,
    (compact_open [1] [2, 3] none sampleHeld { handle := 1 } rfl).1⟩

/-- C20. The delete-if-expired flag is on in every store made by New; in any
store state, open or closed, after SetDeleteIfExpired(b)
needDeleteIfExpired() returns b whatever the flag was; and
SetDeleteIfExpired returns, makes no call and changes no other field of the
store. -/
theorem deleteIfExpired_toggle :
    (∀ db : Option Database, needDeleteIfExpired (New db) = true) ∧
    (∀ (w : World) (b : Bool), needDeleteIfExpired (SetDeleteIfExpired b w).1 = b) ∧
    (∀ (w : World) (b c : Bool),
      needDeleteIfExpired (SetDeleteIfExpired c (SetDeleteIfExpired b w).1).1 = c) ∧
    (∀ (w : World) (b : Bool),
      (SetDeleteIfExpired b w).2 = Outcome.ret () ∧
      (SetDeleteIfExpired b w).1.log = w.log ∧
      (SetDeleteIfExpired b w).1.s =
        { w.s with deleteIfExpired := (SetDeleteIfExpired b w).1.s.deleteIfExpired } ∧
      (SetDeleteIfExpired b w).1.s.serial = w.s.serial ∧
      (SetDeleteIfExpired b w).1.s.splist = w.s.splist ∧
      (SetDeleteIfExpired b w).1.s.itlist = w.s.itlist ∧
      (SetDeleteIfExpired b w).1.s.db = w.s.db ∧
      (SetDeleteIfExpired b w).1.s.mu = w.s.mu) := by
  refine ⟨fun db => by simp [needDeleteIfExpired, New], ?_, ?_, ?_⟩
  · intro w b
    cases b <;> simp [needDeleteIfExpired, SetDeleteIfExpired]
  · intro w b c
    cases c <;> simp [needDeleteIfExpired, SetDeleteIfExpired]
  · intro w b
    cases b <;> simp [SetDeleteIfExpired]

/-- C14 (amended). On an open store whose mutex is free, a Reset whose
facade Clear returns an error returns a non-nil error, the traced facade
error.  Before Clear it has closed every registered snapshot and every
pooled iterator once, and after Clear it closes the facade once; it leaves
registry and pool empty, the facade handle nil, serial and every other field
unchanged, and the mutex free.  After any further calls, NewSnapshot and
Reset fail with an error whose cause is ErrClosed and change nothing, and so
does the gate Acquire; compact has no Closed check of its own and panics on
the nil facade handle, changing nothing. -/
theorem Reset_failed (err : Error) (w : World) (db : Database) (hmu : w.s.mu = false)
    (hdb : w.s.db = some db) :
    (Reset (some err) w).2 = Outcome.ret (some (Trace err)) ∧
    (Reset (some err) w).1.s = { w.s with db := none, splist := [], itlist := [] } ∧
    (Reset (some err) w).1.log =
      w.log
        ++ spCloseLog { w.s with mu := true } w.s.splist.length w.s.splist
        ++ itCloseLog { w.s with mu := true, splist := [] } w.s.itlist.length w.s.itlist
        ++ [{ seen := { w.s with mu := true, splist := [], itlist := [] },
              call := Call.dbClear db },
            { seen := { w.s with mu := true, splist := [], itlist := [] },
              call := Call.dbClose db }] ∧
    newCalls (Op.Reset (some err)) w =
      w.s.splist.map Call.spClose ++ w.s.itlist.map Call.itClose ++
        [Call.dbClear db, Call.dbClose db] ∧
    (Reset (some err) w).1.s.serial = w.s.serial ∧
    (∀ (later : List Op) (addr : Nat) (snap : Snapshot) (reply : Option Error)
        (start limit : List Nat),
      NewSnapshot addr snap (run later (Reset (some err) w).1) =
        (run later (Reset (some err) w).1,
          Outcome.ret (none, some (Trace (Trace Error.ErrClosed)))) ∧
      Reset reply (run later (Reset (some err) w).1) =
        (run later (Reset (some err) w).1,
          Outcome.ret (some (Trace (Trace Error.ErrClosed)))) ∧
      Cause (Trace (Trace Error.ErrClosed)) = Error.ErrClosed ∧
      Acquire (run later (Reset (some err) w).1) =
        (run later (Reset (some err) w).1, Outcome.ret (some (Trace Error.ErrClosed))) ∧
      compact start limit reply (run later (Reset (some err) w).1) =
        (run later (Reset (some err) w).1, Outcome.panic)) := by
  have hc := Reset_failed_eq err w db hmu hdb
  refine ⟨by rw [hc], ?_, by rw [hc], ?_, by rw [hc], ?_⟩
  · rw [hc]
    rcases w with ⟨s, log⟩
    rcases s with ⟨mu, d, sps, its, serial, pre, post, del⟩
    simp only at hmu
    subst hmu
    rfl
  · simp [newCalls, step, hc, spCloseLog_calls, itCloseLog_calls]
  · intro later addr snap reply start limit
    have h0 : (Reset (some err) w).1.s.db = none ∧ (Reset (some err) w).1.s.mu = false := by
      rw [hc]; exact ⟨rfl, rfl⟩
    obtain ⟨h1, h2⟩ := run_closed_free later _ h0.1 h0.2
    refine ⟨?_, Reset_closed reply _ h2 h1, rfl, acquire_closed _ h2 h1, ?_⟩
    · exact NewSnapshotFunc_closed none addr snap _ h2 h1
    · simp [compact, h1]

theorem Reset_failed_witness :
    sampleFree.s.mu = false ∧ sampleFree.s.db = some { handle := 1 } ∧
    (Reset (some (Error.engine 7)) sampleFree).2 =
      Outcome.ret (some (Trace (Error.engine 7))) ∧
    (Reset (some (Error.engine 7)) sampleFree).1.s =
      { sampleFree.s with db := none, splist := [], itlist := [] } ∧
    (Reset (some (Error.engine 7)) sampleFree).1.log.map Event.call =
      [Call.spClose { addr := 100, sp := { handle := 10 } },
        Call.spClose { addr := 101, sp := { handle := 11 } },
        Call.itClose { addr := 200, Iterator := { handle := 20, err := none }, serial := 3 },
        Call.itClose { addr := 201, Iterator := { handle := 21, err := none }, serial := 3 },
        Call.dbClear { handle := 1 }, Call.dbClose { handle := 1 }] :=
  ⟨rfl, rfl,
    (Reset_failed (Error.engine 7) sampleFree { handle := 1 } rfl rfl).1,
    (Reset_failed (Error.engine 7) sampleFree { handle := 1 } rfl rfl).2.1,
    by decide⟩

/-- C14, the claim as stated fails: after a Reset whose facade Clear failed,
on a store made by New, a compact does not return the Closed error; it
panics on the nil facade handle. -/
theorem compact_after_failed_Reset_panics :
    (Reset (some (Error.engine 7)) (New (some { handle := 1 }))).2 =
      Outcome.ret (some (Trace (Error.engine 7))) ∧
    (Reset (some (Error.engine 7)) (New (some { handle := 1 }))).1.s.db = none ∧
    (compact [1] [2] none (Reset (some (Error.engine 7)) (New (some { handle := 1 }))).1).2 =
      Outcome.panic := by
  decide

/-- C15 (amended). On an open store whose mutex is free, a Reset whose
facade Clear succeeds returns nil.  Before Clear it has closed every
registered snapshot and every pooled iterator once; Clear is its last call
and the facade is not closed.  It leaves registry and pool empty, the facade
handle as it was, serial at serial + 1 modulo 2^64 (so serial + 1 unless it
was 2^64 - 1), every other field unchanged, and the mutex free. -/
theorem Reset_succeeded (w : World) (db : Database) (hmu : w.s.mu = false)
    (hdb : w.s.db = some db) :
    (Reset none w).2 = Outcome.ret none ∧
    (Reset none w).1.s =
      { w.s with splist := [], itlist := [], serial := (w.s.serial + 1) % uint64Size } ∧
    (Reset none w).1.log =
      w.log
        ++ spCloseLog { w.s with mu := true } w.s.splist.length w.s.splist
        ++ itCloseLog { w.s with mu := true, splist := [] } w.s.itlist.length w.s.itlist
        ++ [{ seen := { w.s with mu := true, splist := [], itlist := [] },
              call := Call.dbClear db }] ∧
    newCalls (Op.Reset none) w =
      w.s.splist.map Call.spClose ++ w.s.itlist.map Call.itClose ++ [Call.dbClear db] ∧
    (Reset none w).1.s.db = some db ∧
    (w.s.serial + 1 < uint64Size → (Reset none w).1.s.serial = w.s.serial + 1) := by
  have hc := Reset_succeeded_eq w db hmu hdb
  refine ⟨by rw [hc], ?_, by rw [hc], ?_, by rw [hc]; exact hdb, ?_⟩
  · rw [hc]
    rcases w with ⟨s, log⟩
    rcases s with ⟨mu, d, sps, its, serial, pre, post, del⟩
    simp only at hmu
    subst hmu
    rfl
  · simp [newCalls, step, hc, spCloseLog_calls, itCloseLog_calls]
  · intro hlt
    rw [hc]
    exact Nat.mod_eq_of_lt hlt

theorem Reset_succeeded_witness :
    sampleFree.s.mu = false ∧ sampleFree.s.db = some { handle := 1 } ∧
    sampleFree.s.serial + 1 < uint64Size ∧
    (Reset none sampleFree).2 = Outcome.ret none ∧
    (Reset none sampleFree).1.s.serial = 4 ∧
    (Reset none sampleFree).1.log.map Event.call =
      [Call.spClose { addr := 100, sp := { handle := 10 } },
        Call.spClose { addr := 101, sp := { handle := 11 } },
        Call.itClose { addr := 200, Iterator := { handle := 20, err := none }, serial := 3 },
        Call.itClose { addr := 201, Iterator := { handle := 21, err := none }, serial := 3 },
        Call.dbClear { handle := 1 }] :=
  ⟨rfl, rfl, by decide,
    (Reset_succeeded sampleFree { handle := 1 } rfl rfl).1,
    (Reset_succeeded sampleFree { handle := 1 } rfl rfl).2.2.2.2.2 (by decide),
    by decide⟩

/-- C15, the claim as stated fails: on an open store whose serial is
2^64 - 1, a Reset whose facade Clear succeeds returns nil and leaves serial
at 0, which is not the old serial plus one. -/
theorem Reset_succeeded_wraps :
    sampleLastFree.s.mu = false ∧
    sampleLastFree.s.db = some { handle := 1 } ∧
    sampleLastFree.s.serial = 18446744073709551615 ∧
    (Reset none sampleLastFree).2 = Outcome.ret none ∧
    (Reset none sampleLastFree).1.s.serial = 0 ∧
    (Reset none sampleLastFree).1.s.serial ≠ sampleLastFree.s.serial + 1 := by
  decide

/-! ## The gate -/

/-- C16. With the mutex as a held/free flag, on a store whose mutex is free:
acquire returns an error exactly when the facade handle is nil, and that
error has cause ErrClosed; when it returns the error the mutex is free again
and nothing changed; when it returns nil the mutex is held and nothing else
changed, and release then gives back the store as it was.  Close,
NewSnapshotFunc, ReleaseSnapshot and Reset each return, on an open and on a
closed store and whatever the facade answers, with the mutex free. -/
theorem gate_discipline (w : World) (hmu : w.s.mu = false) :
    ((∃ e, (acquire w).2 = Outcome.ret (some e)) ↔ w.s.db = none) ∧
    ((acquire w).2 = Outcome.ret none ↔ ∃ db, w.s.db = some db) ∧
    (w.s.db = none →
      acquire w = (w, Outcome.ret (some (Trace Error.ErrClosed))) ∧
      (acquire w).1.s.mu = false) ∧
    Cause (Trace Error.ErrClosed) = Error.ErrClosed ∧
    (∀ db, w.s.db = some db →
      acquire w = ({ w with s := { w.s with mu := true } }, Outcome.ret none) ∧
      (acquire w).1.s.mu = true ∧
      release (acquire w).1 = (w, Outcome.ret ())) ∧
    Acquire w = acquire w ∧
    ((Close w).2 = Outcome.ret () ∧ (Close w).1.s.mu = false) ∧
    (∀ (f : Option Callback) (addr : Nat) (snap : Snapshot),
      (∃ v, (NewSnapshotFunc f addr snap w).2 = Outcome.ret v) ∧
      (NewSnapshotFunc f addr snap w).1.s.mu = false) ∧
    (∀ sp : StoreSnapshot,
      (ReleaseSnapshot sp w).2 = Outcome.ret () ∧ (ReleaseSnapshot sp w).1.s.mu = false) ∧
    (∀ reply : Option Error,
      (∃ v, (Reset reply w).2 = Outcome.ret v) ∧ (Reset reply w).1.s.mu = false) := by
  cases hdb : w.s.db with
  | none =>
    have ha := acquire_closed w hmu hdb
    refine ⟨?_, ?_, ?_, rfl, ?_, rfl, ?_, ?_, ?_, ?_⟩
    · simp [ha]
    · simp [ha]
    · intro _; exact ⟨ha, by rw [ha]; exact hmu⟩
    · intro db h; exact absurd h (by simp)
    · rw [Close_closed_eq w hmu hdb]; exact ⟨rfl, hmu⟩
    · intro f addr snap
      rw [NewSnapshotFunc_closed f addr snap w hmu hdb]
      exact ⟨⟨_, rfl⟩, hmu⟩
    · intro sp
      rw [ReleaseSnapshot_closed sp w hmu hdb]
      exact ⟨rfl, hmu⟩
    · intro reply
      rw [Reset_closed reply w hmu hdb]
      exact ⟨⟨_, rfl⟩, hmu⟩
  | some db =>
    have ha := acquire_open w db hmu hdb
    refine ⟨?_, ?_, ?_, rfl, ?_, rfl, ?_, ?_, ?_, ?_⟩
    · simp [ha]
    · simp [ha]
    · intro h; exact absurd h (by simp)
    · intro db2 h
      refine ⟨by rw [ha], by rw [ha], ?_⟩
      rw [ha]
      rcases w with ⟨s, log⟩
      rcases s with ⟨mu, d, sps, its, serial, pre, post, del⟩
      simp only at hmu
      subst hmu
      simp [release]
    · rw [Close_open_eq w db hmu hdb]; exact ⟨rfl, rfl⟩
    · intro f addr snap
      rw [NewSnapshotFunc_open_eq f addr snap w db hmu hdb]
      exact ⟨⟨_, rfl⟩, rfl⟩
    · intro sp
      rw [ReleaseSnapshot_open_eq sp w db hmu hdb]
      exact ⟨rfl, rfl⟩
    · intro reply
      cases reply with
      | none => rw [Reset_succeeded_eq w db hmu hdb]; exact ⟨⟨_, rfl⟩, rfl⟩
      | some err => rw [Reset_failed_eq err w db hmu hdb]; exact ⟨⟨_, rfl⟩, rfl⟩

theorem gate_discipline_witness :
    sampleFree.s.mu = false ∧
    acquire sampleFree = (sampleHeld, Outcome.ret none) ∧
    release (acquire sampleFree).1 = (sampleFree, Outcome.ret ()) ∧
    (Reset (some (Error.engine 7)) sampleFree).1.s.mu = false :=
  ⟨rfl,
    ((gate_discipline sampleFree rfl).2.2.2.2.1 { handle := 1 } rfl).1.trans (by decide),
    ((gate_discipline sampleFree rfl).2.2.2.2.1 { handle := 1 } rfl).2.2,
    ((gate_discipline sampleFree rfl).2.2.2.2.2.2.2.2.2 (some (Error.engine 7))).2⟩

end store
